import Mathlib

/-!
Shallow embedding of the kcp workspace-aware CRD resolver
(`apiBindingAwareCRDLister`, `systemCRDProvider`) and of the virtual syncer
API reconciler's registry lifecycle, together with theorems settling the
frozen specification claims.

Conventions of the embedding:
* Logical cluster names (`logicalcluster.Name`, colon-separated paths) are
  modelled as lists of path segments; `HasPrefix` is list-prefix, `Split`
  drops the last segment.
* Go maps `map[string]string` (annotations, labels) are modelled as
  association lists with map-like update (`setAnn` replaces an existing key
  in place and appends otherwise).
* Fallible Go calls (`lister.Get`, `indexer.ByIndex`, injected getters)
  return `Except KErr _`; `apierrors.IsNotFound` corresponds to the
  distinguished constructor `KErr.notFound`.
* Value semantics: `DeepCopy`/map-copying is the identity on values.  The
  pointer-aliasing aspect of the resolver (which returned object shares its
  annotations map with the informer cache) is modelled separately and
  explicitly in the `Alias` namespace with a heap of annotation maps.
-/

/-- A logical cluster name: the segments of a colon-separated path such as
`root:org:team` (from the external `logicalcluster` library). -/
abbrev LCluster := List String

/-- `logicalcluster.Name.String()`: the colon-joined path. -/
def clusterString (c : LCluster) : String := String.intercalate ":" c

/-- `logicalcluster.Wildcard`, the distinguished cluster name matching all
workspaces. -/
def WildcardCluster : LCluster := ["*"]

/-- `tenancyv1alpha1.RootCluster = logicalcluster.New("root")`. -/
def RootCluster : LCluster := ["root"]

/-- `SystemCRDLogicalCluster = logicalcluster.New("system:system-crds")`,
the residence of system CRDs. -/
def SystemCRDLogicalCluster : LCluster := ["system", "system-crds"]

/-- `apibinding.ShadowWorkspaceName = logicalcluster.New("system:bound-crds")`,
the residence of binding-imported shadow CRDs. -/
def ShadowWorkspaceName : LCluster := ["system", "bound-crds"]

/-- `clusters.ToClusterAwareKey(cluster, name)`: the cluster-aware cache key
`<cluster>|<name>`. -/
def toClusterAwareKey (c : LCluster) (name : String) : String :=
  clusterString c ++ "|" ++ name

/-- Errors of the fallible store operations. `notFound` is the class
recognized by `apierrors.IsNotFound`; the other constructors model
`apierrors.NewInternalError`, `apierrors.NewServiceUnavailable` and all
remaining errors. -/
inductive KErr where
  | notFound : KErr
  | internalError : String → KErr
  | serviceUnavailable : String → KErr
  | other : String → KErr
deriving DecidableEq, Repr

deriving instance DecidableEq for Except

/-- One `CustomResourceDefinitionCondition`: type, status, reason, message
(the real-time `LastTransitionTime` field is not modelled).  The Go zero
value is `⟨"", "", "", ""⟩`. -/
structure CRDCondition where
  ctype : String
  status : String
  reason : String
  message : String
deriving DecidableEq, Repr

/-- The Go zero value of a `CustomResourceDefinitionCondition`. -/
def zeroCondition : CRDCondition := ⟨"", "", "", ""⟩

/-- An `apiextensionsv1.JSONSchemaProps` validation schema, abstracted to its
`type` field plus an opaque remainder standing for all other fields (enough
to have a decidable `equality.Semantic.DeepEqual`). The value constructed by
`makePartialMetadataCRD`, `JSONSchemaProps{Type: "object"}`, corresponds to
`⟨"object", []⟩`. -/
structure JSONSchemaPropsM where
  stype : String
  rest : List (String × String)
deriving DecidableEq, Repr

/-- One entry of `spec.versions`: the version name and the (optional,
pointer-valued) validation schema. -/
structure CRDVersion where
  vname : String
  schema : Option JSONSchemaPropsM
deriving DecidableEq, Repr

/-- The parts of `CustomResourceDefinitionSpec` the resolver reads or
compares: group, plural name and versions.  `equality.Semantic.DeepEqual`
on specs is modelled by structural equality. -/
structure CRDSpec where
  group : String
  namesPlural : String
  versions : List CRDVersion
deriving DecidableEq, Repr

/-- A `CustomResourceDefinition` as the resolver sees it: object meta
(name, owning logical cluster, UID, annotations, labels, deletion
timestamp), the spec, and the status conditions. -/
structure CRD where
  name : String
  clusterName : LCluster
  uid : String
  annotations : List (String × String)
  labels : List (String × String)
  spec : CRDSpec
  conditions : List CRDCondition
  deletionTimestamp : Option Nat
deriving DecidableEq, Repr

/-- Go map read `m[k]` returning the value or nothing. -/
def getAnn (l : List (String × String)) (k : String) : Option String :=
  (l.find? (fun p => p.1 == k)).map (·.2)

/-- Go map read `m[k]` with the string zero value `""` on a missing key. -/
def getAnnD (l : List (String × String)) (k : String) : String :=
  (getAnn l k).getD ""

/-- Go map membership `_, ok := m[k]`. -/
def hasAnn (l : List (String × String)) (k : String) : Bool :=
  l.any (fun p => p.1 == k)

/-- Go map write `m[k] = v`: replace the existing entry in place, append
otherwise. -/
def setAnn (l : List (String × String)) (k v : String) : List (String × String) :=
  if l.any (fun p => p.1 == k) then
    l.map (fun p => if p.1 == k then (k, v) else p)
  else l ++ [(k, v)]

/-- `apisv1alpha1.AnnotationAPIIdentityKey = "apis.kcp.dev/identity"`. -/
def AnnotationAPIIdentityKey : String := "apis.kcp.dev/identity"

/-- `annotationKeyPartialMetadata = "crd.kcp.dev/partial-metadata"`. -/
def annotationKeyPartialMetadata : String := "crd.kcp.dev/partial-metadata"

/-- One `BoundAPIResource` of an APIBinding's status: group, resource,
schema UID and identity hash. -/
structure BoundResource where
  group : String
  resource : String
  schemaUID : String
  identityHash : String
deriving DecidableEq, Repr

/-- An `apisv1alpha1.APIBinding` as the resolver reads it: owning cluster,
deletion timestamp, the `InitialBindingCompleted` condition value
(`conditions.IsTrue`), and the bound resources. -/
structure APIBinding where
  clusterName : LCluster
  deletionTimestamp : Option Nat
  initialBindingCompleted : Bool
  boundResources : List BoundResource
deriving DecidableEq, Repr

/-- A `tenancyv1alpha1.ClusterWorkspace`, reduced to `Spec.Type.Name`. -/
structure ClusterWorkspace where
  typeName : String
deriving DecidableEq, Repr

/-- `systemCRDProvider`: the four key sets (as lists of cluster-aware keys)
plus the injected getters. -/
structure SystemCRDProvider where
  commonCRDs : List String
  rootCRDs : List String
  orgCRDs : List String
  universalCRDs : List String
  getClusterWorkspace : String → Except KErr ClusterWorkspace
  getCRD : String → Except KErr CRD

/-- `logicalcluster.Name.Split()`: parent path and final segment. -/
def clusterSplit (c : LCluster) : LCluster × String :=
  (c.dropLast, (c.getLast?).getD "")

/-- `systemCRDProvider.Keys`: the set of system CRD keys visible from a
cluster.  `sets.String.Union` is modelled by list append (the claims only
depend on membership). -/
def SystemCRDProvider.Keys (p : SystemCRDProvider) (clusterName : LCluster) : List String :=
  if clusterName = RootCluster then p.rootCRDs ++ p.commonCRDs
  else if RootCluster.isPrefixOf clusterName then
    let parent := (clusterSplit clusterName).1
    let ws := (clusterSplit clusterName).2
    let workspaceKey := toClusterAwareKey parent ws
    match p.getClusterWorkspace workspaceKey with
    | .error _ => []
    | .ok clusterWorkspace =>
      if clusterWorkspace.typeName = "Universal" then p.universalCRDs ++ p.commonCRDs
      else if clusterWorkspace.typeName = "Organization" ∨ clusterWorkspace.typeName = "Team" then
        p.orgCRDs ++ p.commonCRDs
      else []
  else []

/-- The loop body of `systemCRDProvider.List`: map `getCRD` over a list of
keys, failing on the first error (the Go code wraps the error message; the
wrapping is modelled as returning the underlying error). -/
def getSystemCRDs (p : SystemCRDProvider) : List String → Except KErr (List CRD)
  | [] => .ok []
  | k :: ks =>
    match p.getCRD k with
    | .error e => .error e
    | .ok c => (getSystemCRDs p ks).map (fun l => c :: l)

/-- `systemCRDProvider.List`: fetch every key visible from the cluster. -/
def SystemCRDProvider.ListCRDs (p : SystemCRDProvider) (clusterName : LCluster) :
    Except KErr (List CRD) :=
  getSystemCRDs p (p.Keys clusterName)

/-- C6: `Keys(cluster)` returns `root ∪ common` for the root cluster;
for a proper descendant of root it resolves the workspace type and returns
`universal ∪ common` for `Universal`, `org ∪ common` for `Organization` or
`Team`, and the empty set for any other type or for any workspace-lookup
error (not-found or otherwise); for every other cluster it returns the
empty set. -/
theorem systemCRDProvider_Keys_spec (p : SystemCRDProvider) (cl : LCluster) :
    (cl = RootCluster → p.Keys cl = p.rootCRDs ++ p.commonCRDs) ∧
    (cl ≠ RootCluster → RootCluster.isPrefixOf cl = true →
      (∀ e, p.getClusterWorkspace
          (toClusterAwareKey (clusterSplit cl).1 (clusterSplit cl).2) = .error e →
          p.Keys cl = []) ∧
      (∀ cw, p.getClusterWorkspace
          (toClusterAwareKey (clusterSplit cl).1 (clusterSplit cl).2) = .ok cw →
        (cw.typeName = "Universal" → p.Keys cl = p.universalCRDs ++ p.commonCRDs) ∧
        ((cw.typeName = "Organization" ∨ cw.typeName = "Team") →
          p.Keys cl = p.orgCRDs ++ p.commonCRDs) ∧
        (cw.typeName ≠ "Universal" → cw.typeName ≠ "Organization" → cw.typeName ≠ "Team" →
          p.Keys cl = []))) ∧
    (RootCluster.isPrefixOf cl = false → p.Keys cl = []) := by
  refine ⟨fun h => ?_, fun hne hpre => ⟨fun e he => ?_, fun cw hcw => ⟨fun ht => ?_, fun ht => ?_, fun h1 h2 h3 => ?_⟩⟩, fun hnp => ?_⟩
  · simp [SystemCRDProvider.Keys, h]
  · simp [SystemCRDProvider.Keys, hne, hpre, he]
  · rcases Decidable.em (cw.typeName = "Organization" ∨ cw.typeName = "Team") with h | h
    · rcases h with h | h <;> simp [ht] at h
    · simp [SystemCRDProvider.Keys, hne, hpre, hcw, ht]
  · have hne1 : cw.typeName ≠ "Universal" := by
      rcases ht with h | h <;> simp [h]
    simp [SystemCRDProvider.Keys, hne, hpre, hcw, hne1, ht]
  · simp [SystemCRDProvider.Keys, hne, hpre, hcw, h1, h2, h3]
  · have hne : cl ≠ RootCluster := by
      intro h; subst h
      exact absurd hnp (by decide)
    simp [SystemCRDProvider.Keys, hne, hnp]

/-- A concrete provider used by witnesses: a universal-typed workspace
under root. -/
def pEx : SystemCRDProvider :=
  { commonCRDs := ["system:system-crds|clusterworkspaces.tenancy.kcp.dev"]
    rootCRDs := ["system:system-crds|locations.scheduling.kcp.dev"]
    orgCRDs := ["system:system-crds|locations.scheduling.kcp.dev"]
    universalCRDs := ["system:system-crds|apiexports.apis.kcp.dev"]
    getClusterWorkspace := fun k =>
      if k = "root|w" then .ok ⟨"Universal"⟩ else .error .notFound
    getCRD := fun _ => .error .notFound }

/-- Witness for C6: evaluating `Keys` at the root cluster and at a
universal-typed descendant of root. -/
theorem systemCRDProvider_Keys_spec_witness :
    pEx.Keys ["root"] = pEx.rootCRDs ++ pEx.commonCRDs ∧
    pEx.Keys ["root", "w"] = pEx.universalCRDs ++ pEx.commonCRDs :=
  ⟨(systemCRDProvider_Keys_spec pEx ["root"]).1 rfl,
   (((systemCRDProvider_Keys_spec pEx ["root", "w"]).2.1 (by decide) (by decide)).2
      ⟨"Universal"⟩ (by decide)).1 rfl⟩

/-- The request context as the resolver reads it: the logical cluster name
(`request.ClusterNameFrom`, `none` when the context lacks one), the API
identity (`IdentityFromContext`, the empty string when absent), and the
value stored under the accept-header context key (`none` models a context
that holds no value there, on which the unchecked type assertion in
`isPartialMetadataRequest` panics). -/
structure Ctx where
  clusterName : Option LCluster
  identity : String
  acceptHeader : Option String

/-- Split a character list on every occurrence of a separator
(`strings.Split`). -/
def splitListOn (sep : Char) : List Char → List (List Char)
  | [] => [[]]
  | c :: cs =>
    if c = sep then [] :: splitListOn sep cs
    else
      match splitListOn sep cs with
      | [] => [[c]]
      | g :: gs => (c :: g) :: gs

/-- Whitespace as trimmed by `strings.TrimSpace` (the ASCII cases). -/
def isSpaceChar (c : Char) : Bool := c = ' ' ∨ c = '\t' ∨ c = '\n' ∨ c = '\r'

/-- `strings.TrimSpace` on a character list. -/
def trimChars (l : List Char) : List Char :=
  ((l.dropWhile isSpaceChar).reverse.dropWhile isSpaceChar).reverse

/-- One clause of `goautoneg.ParseAccept` carries the `as` parameter used by
`isPartialMetadataHeader`.  Modelled from the external goautoneg contract:
clauses are comma-separated, parameters semicolon-separated `key=value`
pairs. -/
def clauseHasPartialMetadataParam (clause : List Char) : Bool :=
  (splitListOn ';' clause).any fun p =>
    match splitListOn '=' (trimChars p) with
    | [k, v] =>
      trimChars k == "as".data &&
        (trimChars v == "PartialObjectMetadata".data ||
         trimChars v == "PartialObjectMetadataList".data)
    | _ => false

/-- `isPartialMetadataHeader`: does any accept clause carry
`as=PartialObjectMetadata` or `as=PartialObjectMetadataList`? -/
def isPartialMetadataHeader (accept : String) : Bool :=
  (splitListOn ',' accept.data).any clauseHasPartialMetadataParam

/-- `isPartialMetadataRequest`: reads the accept-header context value via an
unchecked type assertion.  `none` models the panic on a context without the
value; otherwise an empty header is not a partial-metadata request. -/
def isPartialMetadataRequestOpt (ctx : Ctx) : Option Bool :=
  ctx.acceptHeader.map fun accept =>
    if accept = "" then false else isPartialMetadataHeader accept

/-- `apiBindingAwareCRDLister`: the read-only stores and indexes the
resolver consults.  Index names follow the source (`byWorkspace`,
`byGroupResourceName`, `apibinding.IndexAPIBindingsByIdentityGroupResource`). -/
structure APIBindingAwareCRDLister where
  crdLister : String → Except KErr CRD
  crdIndexByWorkspace : String → Except KErr (List CRD)
  crdIndexByGroupResourceName : String → Except KErr (List CRD)
  apiBindingIndexByWorkspace : String → Except KErr (List APIBinding)
  apiBindingIndexByIdentityGroupResource : String → Except KErr (List APIBinding)
  systemCRDProvider : SystemCRDProvider

/-- Split a character list at the first occurrence of a separator
(`strings.SplitN(s, sep, 2)`): `none` when the separator is absent. -/
def breakAtFirst (sep : Char) : List Char → Option (List Char × List Char)
  | [] => none
  | c :: cs =>
    if c = sep then some ([], cs)
    else
      match breakAtFirst sep cs with
      | none => none
      | some (a, b) => some (c :: a, b)

/-- `crdNameToGroupResource`: split `resource[.group]` at the first dot and
normalize the `core` group to the empty string.  Returns `(group, resource)`
like the source. -/
def crdNameToGroupResource (name : String) : String × String :=
  match breakAtFirst '.' name.data with
  | none => ("", name)
  | some (resource, rest) =>
    let group := String.mk rest
    let group := if group = "core" then "" else group
    (group, String.mk resource)

/-- `shallowCopyCRDAndDeepCopyAnnotations`: a shallow copy whose annotations
map is freshly allocated with the same entries.  On values this is the
identity; the allocation aspect is modelled in the `Alias` namespace. -/
def shallowCopyCRDAndDeepCopyAnnotations (inC : CRD) : CRD :=
  { inC with annotations := inC.annotations }

/-- Replace the first condition with the given type, leaving the rest
unchanged (the in-place update through the pointer returned by
`FindCRDCondition`). -/
def updateCondFirst : List CRDCondition → CRDCondition → List CRDCondition
  | [], _ => []
  | c :: cs, n =>
    if c.ctype == n.ctype then
      { c with status := n.status, reason := n.reason, message := n.message } :: cs
    else c :: updateCondFirst cs n

/-- `apiextensionshelpers.SetCRDCondition`, modelled from the external
apiextensions helper library: update the first existing condition of the
same type in place, append otherwise (`LastTransitionTime` is not
modelled). -/
def setCRDCondition (crd : CRD) (newCond : CRDCondition) : CRD :=
  if crd.conditions.any (fun c => c.ctype == newCond.ctype) then
    { crd with conditions := updateCondFirst crd.conditions newCond }
  else { crd with conditions := crd.conditions ++ [newCond] }

/-- `decorateCRDWithBinding`: copy, set the identity annotation, and when
the binding is deleting rebuild the conditions slice
(`make(..., len(in.Status.Conditions))` followed by `append`, which yields
the zero-valued conditions followed by the originals), propagate the
deletion timestamp, and set the `Terminating=True` condition. -/
def decorateCRDWithBinding (inC : CRD) (identity : String) (deleteTime : Option Nat) : CRD :=
  let out := shallowCopyCRDAndDeepCopyAnnotations inC
  let out := { out with annotations := setAnn out.annotations AnnotationAPIIdentityKey identity }
  if deleteTime = none then out
  else
    let out := { out with
      conditions := List.replicate inC.conditions.length zeroCondition ++ inC.conditions }
    let out := { out with deletionTimestamp := deleteTime }
    setCRDCondition out ⟨"Terminating", "True", "", ""⟩

/-- `makePartialMetadataCRD`: set the partial-metadata marker annotation and
replace every version's validation schema by the minimal
`{type: "object"}`. -/
def makePartialMetadataCRD (crd : CRD) : CRD :=
  { crd with
    annotations := setAnn crd.annotations annotationKeyPartialMetadata ""
    spec := { crd.spec with
      versions := crd.spec.versions.map fun v => { v with schema := some ⟨"object", []⟩ } } }

/-- The diagnostic of the wildcard full-data divergence error. -/
def wildcardDivergenceMsg : String :=
  "error resolving resource: cannot watch across logical clusters for a resource type with several distinct schemas"

/-- The loop of `getForFullDataWildcard`: keep the first CRD, fail as soon
as a later CRD's spec is not semantically equal to the first one's. -/
def pickUniformSpec (found : Option CRD) : List CRD → Except KErr (Option CRD)
  | [] => .ok found
  | crd :: rest =>
    match found with
    | none => pickUniformSpec (some crd) rest
    | some f =>
      if f.spec = crd.spec then pickUniformSpec found rest
      else .error (.internalError wildcardDivergenceMsg)

/-- `apiBindingAwareCRDLister.getForFullDataWildcard`. -/
def APIBindingAwareCRDLister.getForFullDataWildcard (c : APIBindingAwareCRDLister)
    (name : String) : Except KErr CRD :=
  match c.crdIndexByGroupResourceName name with
  | .error e => .error e
  | .ok objs =>
    match pickUniformSpec none objs with
    | .error e => .error e
    | .ok none => .error .notFound
    | .ok (some foundCRD) => .ok foundCRD

/-- `apiBindingAwareCRDLister.getForWildcardPartialMetadata`: the first CRD
with the given name from the `byGroupResourceName` index, or not-found. -/
def APIBindingAwareCRDLister.getForWildcardPartialMetadata (c : APIBindingAwareCRDLister)
    (name : String) : Except KErr CRD :=
  match c.crdIndexByGroupResourceName name with
  | .error e => .error e
  | .ok [] => .error .notFound
  | .ok (crd :: _) => .ok crd

/-- `apibinding.IdentityGroupResourceKeyFunc`. -/
def identityGroupResourceKey (identity group resource : String) : String :=
  identity ++ "/" ++ group ++ "/" ++ resource

/-- `apiBindingAwareCRDLister.getForIdentity`: resolve through the
`byIdentityGroupResource` binding index, pick the first binding, find its
matching bound resource, fetch the shadow CRD and decorate it. -/
def APIBindingAwareCRDLister.getForIdentity (c : APIBindingAwareCRDLister)
    (name identity : String) : Except KErr CRD :=
  let gr := crdNameToGroupResource name
  match c.apiBindingIndexByIdentityGroupResource
      (identityGroupResourceKey identity gr.1 gr.2) with
  | .error e => .error e
  | .ok [] => .error .notFound
  | .ok (apiBinding :: _) =>
    match apiBinding.boundResources.find? (fun r =>
        r.group == gr.1 && r.resource == gr.2 && r.identityHash == identity) with
    | none => .error .notFound
    | some r =>
      if r.schemaUID = "" then .error .notFound
      else
        match c.crdLister (toClusterAwareKey ShadowWorkspaceName r.schemaUID) with
        | .error e => .error e
        | .ok crd => .ok (decorateCRDWithBinding crd identity apiBinding.deletionTimestamp)

/-- `apiBindingAwareCRDLister.getSystemCRD`: a wildcard cluster fetches the
system key directly; any other cluster is gated by the provider's `Keys`. -/
def APIBindingAwareCRDLister.getSystemCRD (c : APIBindingAwareCRDLister)
    (clusterName : LCluster) (name : String) : Except KErr CRD :=
  if clusterName = WildcardCluster then
    c.crdLister (toClusterAwareKey SystemCRDLogicalCluster name)
  else
    let systemCRDKeys := c.systemCRDProvider.Keys clusterName
    let systemCRDKeyName := toClusterAwareKey SystemCRDLogicalCluster name
    if systemCRDKeys.contains systemCRDKeyName then c.crdLister systemCRDKeyName
    else .error .notFound

/-- The nested loops of `apiBindingAwareCRDLister.get`: the first bound
resource of the first completed binding that matches `(group, resource)`,
with its binding. -/
def findBound (group resource : String) : List APIBinding → Option (APIBinding × BoundResource)
  | [] => none
  | b :: bs =>
    if b.initialBindingCompleted then
      match b.boundResources.find? (fun r => r.group == group && r.resource == resource) with
      | some r => some (b, r)
      | none => findBound group resource bs
    else findBound group resource bs

/-- `apiBindingAwareCRDLister.get` (the normal single-cluster path): walk
completed bindings first, then fall back to the local workspace copy. -/
def APIBindingAwareCRDLister.get (c : APIBindingAwareCRDLister)
    (clusterName : LCluster) (name : String) : Except KErr CRD :=
  let gr := crdNameToGroupResource name
  match c.apiBindingIndexByWorkspace (clusterString clusterName) with
  | .error e => .error e
  | .ok bindings =>
    match findBound gr.1 gr.2 bindings with
    | some (apiBinding, boundResource) =>
      match c.crdLister (toClusterAwareKey ShadowWorkspaceName boundResource.schemaUID) with
      | .error .notFound => .error (.serviceUnavailable (name ++ " is currently unavailable"))
      | .error e => .error e
      | .ok crd =>
        .ok (decorateCRDWithBinding crd boundResource.identityHash apiBinding.deletionTimestamp)
    | none =>
      match c.crdLister (toClusterAwareKey clusterName name) with
      | .error .notFound => .error .notFound
      | .error e => .error e
      | .ok crd => .ok crd

/-- The projection applied at the end of `Get` when the request is
partial-metadata: shallow copy, minimal schemas, and for wildcard requests
the discriminating UID. -/
def projectIfPartial (clusterName : LCluster) (name : String) (pm : Bool) (crd : CRD) : CRD :=
  if pm then
    let c := shallowCopyCRDAndDeepCopyAnnotations crd
    let c := makePartialMetadataCRD c
    if clusterName = WildcardCluster then
      { c with uid := name ++ ".wildcard.partial-metadata" }
    else c
  else crd

/-- `apiBindingAwareCRDLister.Get`.  The `Option` layer models the panic of
the unchecked accept-header type assertion: `none` is a panic, `some`
carries the returned `(crd, err)`. -/
def APIBindingAwareCRDLister.Get (c : APIBindingAwareCRDLister) (ctx : Ctx)
    (name : String) : Option (Except KErr CRD) :=
  match ctx.clusterName with
  | none => some (.error (.other "no cluster in context"))
  | some clusterName =>
    match c.getSystemCRD clusterName name with
    | .ok crd =>
      match isPartialMetadataRequestOpt ctx with
      | none => none
      | some pm => some (.ok (projectIfPartial clusterName name pm crd))
    | .error e =>
      if e = .notFound then
        match isPartialMetadataRequestOpt ctx with
        | none => none
        | some pm =>
          let res :=
            if ctx.identity ≠ "" then c.getForIdentity name ctx.identity
            else if clusterName = WildcardCluster ∧ pm = true then
              c.getForWildcardPartialMetadata name
            else if clusterName = WildcardCluster then c.getForFullDataWildcard name
            else c.get clusterName name
          match res with
          | .error e' => some (.error e')
          | .ok crd => some (.ok (projectIfPartial clusterName name pm crd))
      else some (.error e)

/-- `strings.HasSuffix`. -/
def strHasSuffix (s suf : String) : Bool := suf.data.isSuffixOf s.data

/-- The body of the `.ok` arm of `Refresh`: starting from the re-fetched
store copy, re-apply the input's identity annotation, partial-metadata
projection, and (inside the projected case) the wildcard-partial-metadata
UID. -/
def refreshCore (crd updatedCRD : CRD) : CRD :=
  let refreshed := shallowCopyCRDAndDeepCopyAnnotations updatedCRD
  let identity := getAnnD crd.annotations AnnotationAPIIdentityKey
  let refreshed :=
    if identity ≠ "" then
      { refreshed with
        annotations := setAnn refreshed.annotations AnnotationAPIIdentityKey identity }
    else refreshed
  let refreshed :=
    if hasAnn crd.annotations annotationKeyPartialMetadata then
      let r := makePartialMetadataCRD refreshed
      if strHasSuffix crd.uid ".wildcard.partial-metadata" then { r with uid := crd.uid }
      else r
    else refreshed
  refreshed

/-- `apiBindingAwareCRDLister.Refresh`: re-fetch the store copy by
`(owningWorkspace, name)` and apply `refreshCore` to it. -/
def APIBindingAwareCRDLister.Refresh (c : APIBindingAwareCRDLister) (crd : CRD) :
    Except KErr CRD :=
  match c.crdLister (toClusterAwareKey crd.clusterName crd.name) with
  | .error e => .error e
  | .ok updatedCRD => .ok (refreshCore crd updatedCRD)

/-- `crdName`: the de-duplication key of `List`, `plural.group`. -/
def crdDedupName (crd : CRD) : String := crd.spec.namesPlural ++ "." ++ crd.spec.group

/-- The binding pass of `List`: for every bound resource of every completed
binding fetch the shadow CRD; fetch errors are skipped, selector mismatches
and already-seen names are skipped; hits are decorated and appended and
their name recorded.  The accumulator carries `(ret, seen)`. -/
def listBindingResources (c : APIBindingAwareCRDLister) (b : APIBinding)
    (selector : List (String × String) → Bool) :
    List BoundResource → List CRD × List String → List CRD × List String
  | [], acc => acc
  | r :: rs, (ret, seen) =>
    match c.crdLister (toClusterAwareKey ShadowWorkspaceName r.schemaUID) with
    | .error _ => listBindingResources c b selector rs (ret, seen)
    | .ok crd =>
      if ¬ selector crd.labels then listBindingResources c b selector rs (ret, seen)
      else if seen.contains (crdDedupName crd) then
        listBindingResources c b selector rs (ret, seen)
      else
        listBindingResources c b selector rs
          (ret ++ [decorateCRDWithBinding crd r.identityHash b.deletionTimestamp],
           seen ++ [crdDedupName crd])

/-- The outer loop of the binding pass of `List`: non-completed bindings are
skipped. -/
def listBindingPass (c : APIBindingAwareCRDLister)
    (selector : List (String × String) → Bool) :
    List APIBinding → List CRD × List String → List CRD × List String
  | [], acc => acc
  | b :: bs, acc =>
    if b.initialBindingCompleted then
      listBindingPass c selector bs (listBindingResources c b selector b.boundResources acc)
    else listBindingPass c selector bs acc

/-- `apiBindingAwareCRDLister.List`: system pass (fatal errors), binding
pass (per-schema fetch errors skipped), local pass (fatal errors), with the
`seen` name set enforcing system ≻ binding ≻ local. -/
def APIBindingAwareCRDLister.List (c : APIBindingAwareCRDLister) (ctx : Ctx)
    (selector : List (String × String) → Bool) : Except KErr (List CRD) :=
  match ctx.clusterName with
  | none => .error (.other "no cluster in context")
  | some clusterName =>
    match c.systemCRDProvider.ListCRDs clusterName with
    | .error e => .error e
    | .ok kcpSystemCRDs =>
      let seen := kcpSystemCRDs.map crdDedupName
      match c.apiBindingIndexByWorkspace (clusterString clusterName) with
      | .error e => .error e
      | .ok bindings =>
        let acc := listBindingPass c selector bindings (kcpSystemCRDs, seen)
        match c.crdIndexByWorkspace (clusterString clusterName) with
        | .error e => .error e
        | .ok locals =>
          .ok (acc.1 ++ locals.filter (fun crd =>
            selector crd.labels && ¬ acc.2.contains (crdDedupName crd)))

/-- The API-domain registry of the syncer `APIReconciler`: the map
`apiSets : map[APIDomainKey]APIDefinitionSet` (an association list keyed by
the domain key, each set carried as the list of its `APIDefinition`s,
identified by numbers) together with the trace of `TearDown` calls issued
so far (with multiplicity). -/
structure ReconcilerRegistry where
  apiSets : List (String × List Nat)
  tearDowns : List Nat
deriving DecidableEq, Repr

/-- `APIReconciler.removeAPIDefinitionSet`: under the lock, delete the map
entry for the key.  The source performs only `delete(c.apiSets, key)` — no
`TearDown` is called on the definitions of the removed set. -/
def removeAPIDefinitionSet (σ : ReconcilerRegistry) (key : String) : ReconcilerRegistry :=
  { σ with apiSets := σ.apiSets.filter (fun p => ¬ p.1 = key) }

/-- The deferred block of `APIReconciler.Start`: on shutdown, call
`TearDown` on every definition of every set still present in the map. -/
def startShutdownTeardown (σ : ReconcilerRegistry) : ReconcilerRegistry :=
  { σ with tearDowns := σ.tearDowns ++ (σ.apiSets.map Prod.snd).flatten }

/-- Modelled from the spec: the reconcile step (its source file is not under
`src/`; only `process` and `removeAPIDefinitionSet` are) publishes the
updated definition set for a key atomically, calling `TearDown` exactly on
the definitions of the previous set that are no longer present. -/
def publishAPIDefinitionSet (σ : ReconcilerRegistry) (key : String) (defs : List Nat) :
    ReconcilerRegistry :=
  let old := ((σ.apiSets.find? (fun p => p.1 = key)).map Prod.snd).getD []
  { apiSets := (key, defs) :: σ.apiSets.filter (fun p => ¬ p.1 = key)
    tearDowns := σ.tearDowns ++ old.filter (fun d => ¬ defs.contains d) }

/-- C2: the code violates the teardown-exactly-once invariant.  Insert one
definition set for a sync-target key (reconcile, modelled from the spec),
then delete the sync-target (`process` takes the not-found path and calls
`removeAPIDefinitionSet`, which only deletes the map entry), then stop the
reconciler (`Start`'s deferred teardown sees an empty map).  The definition
inserted is never torn down: its `TearDown` count is 0, not 1. -/
theorem reconciler_teardown_leak :
    (startShutdownTeardown
      (removeAPIDefinitionSet
        (publishAPIDefinitionSet ⟨[], []⟩ "root:w|sync-target-1" [1])
        "root:w|sync-target-1")).tearDowns.count 1 = 0 ∧
    (startShutdownTeardown
      (startShutdownTeardown
        (publishAPIDefinitionSet ⟨[], []⟩ "root:w|sync-target-1" [1]))).tearDowns.count 1 = 2 := by
  decide

/-- The concrete CRD of the C3 failing input: a single genuine status
condition `Established=True`. -/
def crdC3 : CRD :=
  { name := "widgets.example.io"
    clusterName := ShadowWorkspaceName
    uid := "uid-1"
    annotations := []
    labels := []
    spec := ⟨"example.io", "widgets", [⟨"v1", some ⟨"object", [("p", "x")]⟩⟩]⟩
    conditions := [⟨"Established", "True", "InitialNamesAccepted", "ok"⟩]
    deletionTimestamp := none }

/-- C3: the code violates the condition-preservation claim.  Decorating a
CRD that has one status condition with a deleting binding
(`deleteTime = some 5`) yields a conditions list that starts with a
zero-valued condition: `make([]..., len(in.Status.Conditions))` allocates
`len` zero values and the subsequent `append` adds the originals after
them.  The identity annotation and the deletion timestamp are set as
claimed, but the status gains a zero-valued condition. -/
theorem decorate_zero_condition_bug :
    (decorateCRDWithBinding crdC3 "id-hash-1" (some 5)).conditions =
      [zeroCondition,
       ⟨"Established", "True", "InitialNamesAccepted", "ok"⟩,
       ⟨"Terminating", "True", "", ""⟩] ∧
    getAnn (decorateCRDWithBinding crdC3 "id-hash-1" (some 5)).annotations
      AnnotationAPIIdentityKey = some "id-hash-1" ∧
    (decorateCRDWithBinding crdC3 "id-hash-1" (some 5)).deletionTimestamp = some 5 := by
  decide

/-- If every remaining spec equals the found one's, the wildcard loop keeps
the found CRD. -/
theorem pickUniformSpec_ok_of_all_eq (f : CRD) :
    ∀ objs : List CRD, (∀ x ∈ objs, x.spec = f.spec) →
      pickUniformSpec (some f) objs = .ok (some f) := by
  intro objs
  induction objs with
  | nil => intro _; rfl
  | cons crd rest ih =>
    intro h
    have hc : f.spec = crd.spec := (h crd (by simp)).symm
    simp [pickUniformSpec, hc]
    exact ih fun x hx => h x (by simp [hx])

/-- If some remaining spec differs from the found one's, the wildcard loop
fails with the internal divergence error. -/
theorem pickUniformSpec_error_of_diverge (f : CRD) :
    ∀ objs : List CRD, (∃ x ∈ objs, x.spec ≠ f.spec) →
      pickUniformSpec (some f) objs = .error (.internalError wildcardDivergenceMsg) := by
  intro objs
  induction objs with
  | nil => rintro ⟨x, hx, _⟩; simp at hx
  | cons crd rest ih =>
    rintro ⟨x, hx, hne⟩
    by_cases hc : f.spec = crd.spec
    · simp [pickUniformSpec, hc]
      refine ih ⟨x, ?_, hne⟩
      rcases List.mem_cons.mp hx with h | h
      · exact absurd (h ▸ hc.symm) hne
      · exact h
    · simp [pickUniformSpec, hc]

/-- C4: for a wildcard full-data `Get(name)` over a successfully read
`by-group-resource-name` index: an empty match list yields not-found; if
all matching schemas have semantically equal specs the result is one of
them (the first); if two matching schemas have distinct specs the result
is the internal divergence error. -/
theorem getForFullDataWildcard_spec (L : APIBindingAwareCRDLister) (name : String)
    (objs : List CRD) (h : L.crdIndexByGroupResourceName name = .ok objs) :
    (objs = [] → L.getForFullDataWildcard name = .error .notFound) ∧
    (∀ c₀ rest, objs = c₀ :: rest →
      ((∀ x ∈ objs, ∀ y ∈ objs, x.spec = y.spec) →
        L.getForFullDataWildcard name = .ok c₀ ∧ c₀ ∈ objs) ∧
      ((∃ x ∈ objs, ∃ y ∈ objs, x.spec ≠ y.spec) →
        L.getForFullDataWildcard name = .error (.internalError wildcardDivergenceMsg))) := by
  constructor
  · intro he
    subst he
    simp [APIBindingAwareCRDLister.getForFullDataWildcard, h, pickUniformSpec]
  · intro c₀ rest hobjs
    subst hobjs
    constructor
    · intro hall
      have hrest : ∀ x ∈ rest, x.spec = c₀.spec := fun x hx =>
        hall x (by simp [hx]) c₀ (by simp)
      have : pickUniformSpec (some c₀) rest = .ok (some c₀) :=
        pickUniformSpec_ok_of_all_eq c₀ rest hrest
      refine ⟨?_, by simp⟩
      simp [APIBindingAwareCRDLister.getForFullDataWildcard, h, pickUniformSpec, this]
    · rintro ⟨x, hx, y, hy, hne⟩
      have hdiv : ∃ z ∈ rest, z.spec ≠ c₀.spec := by
        by_contra hno
        push_neg at hno
        have hany : ∀ z ∈ c₀ :: rest, z.spec = c₀.spec := by
          intro z hz
          rcases List.mem_cons.mp hz with h' | h'
          · simp [h']
          · exact hno z h'
        exact hne ((hany x hx).trans (hany y hy).symm)
      have : pickUniformSpec (some c₀) rest = .error (.internalError wildcardDivergenceMsg) :=
        pickUniformSpec_error_of_diverge c₀ rest hdiv
      simp [APIBindingAwareCRDLister.getForFullDataWildcard, h, pickUniformSpec, this]

/-- A one-version spec used by concrete witnesses. -/
def specEx (ty : String) : CRDSpec := ⟨"example.io", "widgets", [⟨"v1", some ⟨ty, []⟩⟩]⟩

/-- A workspace-local CRD used by concrete witnesses. -/
def crdEx (cl : LCluster) (ty : String) : CRD :=
  { name := "widgets.example.io", clusterName := cl, uid := "uid-" ++ clusterString cl
    annotations := [("a", "1")], labels := [], spec := specEx ty
    conditions := [], deletionTimestamp := none }

/-- A lister whose `by-group-resource-name` index holds two copies of
`widgets.example.io` with equal specs. -/
def listerEx4 : APIBindingAwareCRDLister :=
  { crdLister := fun _ => .error .notFound
    crdIndexByWorkspace := fun _ => .ok []
    crdIndexByGroupResourceName := fun n =>
      if n = "widgets.example.io" then
        .ok [crdEx ["root", "w1"] "object", crdEx ["root", "w2"] "object"]
      else .ok []
    apiBindingIndexByWorkspace := fun _ => .ok []
    apiBindingIndexByIdentityGroupResource := fun _ => .ok []
    systemCRDProvider := pEx }

/-- Witness for C4: two equal-spec copies resolve to the first one. -/
theorem getForFullDataWildcard_spec_witness :
    listerEx4.getForFullDataWildcard "widgets.example.io" = .ok (crdEx ["root", "w1"] "object") ∧
    crdEx ["root", "w1"] "object" ∈
      [crdEx ["root", "w1"] "object", crdEx ["root", "w2"] "object"] :=
  ((getForFullDataWildcard_spec listerEx4 "widgets.example.io"
      [crdEx ["root", "w1"] "object", crdEx ["root", "w2"] "object"] (by decide)).2
    (crdEx ["root", "w1"] "object") [crdEx ["root", "w2"] "object"] rfl).1 (by decide)

/-- `findBound` finds nothing iff no completed binding declares a matching
bound resource. -/
theorem findBound_eq_none_iff (g r : String) :
    ∀ bs : List APIBinding, findBound g r bs = none ↔
      ∀ b ∈ bs, b.initialBindingCompleted = true →
        ∀ x ∈ b.boundResources, ¬ (x.group = g ∧ x.resource = r) := by
  intro bs
  induction bs with
  | nil => simp [findBound]
  | cons b rest ih =>
    by_cases hc : b.initialBindingCompleted
    · cases hf : b.boundResources.find? (fun x => x.group == g && x.resource == r) with
      | none =>
        have hnone : ∀ x ∈ b.boundResources, ¬ (x.group = g ∧ x.resource = r) := by
          intro x hx
          have := List.find?_eq_none.mp hf x hx
          simpa using this
        simp only [findBound, hc, if_true, hf]
        rw [ih]
        constructor
        · intro h
          intro b' hb' hcomp x hx
          rcases List.mem_cons.mp hb' with h' | h'
          · subst h'
            exact hnone x hx
          · exact h b' h' hcomp x hx
        · intro h b' hb' hcomp x hx
          exact h b' (by simp [hb']) hcomp x hx
      | some x =>
        have hx := List.find?_some hf
        have hmem := List.mem_of_find?_eq_some hf
        simp only [findBound, hc, if_true, hf]
        constructor
        · intro h; exact absurd h (by simp)
        · intro h
          exact absurd (by simpa using hx) (h b (by simp) hc x hmem)
    · have hcf : b.initialBindingCompleted = false := by simpa using hc
      have hstep : findBound g r (b :: rest) = findBound g r rest := by
        simp [findBound, hcf]
      rw [hstep, ih]
      constructor
      · intro h b' hb' hcomp x hx
        rcases List.mem_cons.mp hb' with h' | h'
        · exact absurd hcomp (by simp [h', hc])
        · exact h b' h' hcomp x hx
      · intro h b' hb' hcomp x hx
        exact h b' (by simp [hb']) hcomp x hx

/-- When the binding walk finds a match whose shadow CRD is readable, the
normal path returns the decorated shadow CRD (the local store is not
consulted). -/
theorem lister_get_of_bound_ok (L : APIBindingAwareCRDLister) (cl : LCluster)
    (name : String) (bindings : List APIBinding) (b : APIBinding) (r : BoundResource)
    (crd : CRD)
    (hb : L.apiBindingIndexByWorkspace (clusterString cl) = .ok bindings)
    (hf : findBound (crdNameToGroupResource name).1 (crdNameToGroupResource name).2
      bindings = some (b, r))
    (hc : L.crdLister (toClusterAwareKey ShadowWorkspaceName r.schemaUID) = .ok crd) :
    L.get cl name = .ok (decorateCRDWithBinding crd r.identityHash b.deletionTimestamp) := by
  simp [APIBindingAwareCRDLister.get, hb, hf, hc]

/-- When the binding walk finds a match whose shadow CRD is missing, the
normal path returns service-unavailable. -/
theorem lister_get_of_bound_notFound (L : APIBindingAwareCRDLister) (cl : LCluster)
    (name : String) (bindings : List APIBinding) (b : APIBinding) (r : BoundResource)
    (hb : L.apiBindingIndexByWorkspace (clusterString cl) = .ok bindings)
    (hf : findBound (crdNameToGroupResource name).1 (crdNameToGroupResource name).2
      bindings = some (b, r))
    (hc : L.crdLister (toClusterAwareKey ShadowWorkspaceName r.schemaUID) = .error .notFound) :
    L.get cl name = .error (.serviceUnavailable (name ++ " is currently unavailable")) := by
  simp [APIBindingAwareCRDLister.get, hb, hf, hc]

/-- When no completed binding matches, the normal path falls back to the
local `(cluster, name)` store entry. -/
theorem lister_get_of_no_bound (L : APIBindingAwareCRDLister) (cl : LCluster)
    (name : String) (bindings : List APIBinding)
    (hb : L.apiBindingIndexByWorkspace (clusterString cl) = .ok bindings)
    (hf : findBound (crdNameToGroupResource name).1 (crdNameToGroupResource name).2
      bindings = none) :
    (∀ crd, L.crdLister (toClusterAwareKey cl name) = .ok crd → L.get cl name = .ok crd) ∧
    (L.crdLister (toClusterAwareKey cl name) = .error .notFound →
      L.get cl name = .error .notFound) := by
  constructor
  · intro crd hc
    simp [APIBindingAwareCRDLister.get, hb, hf, hc]
  · intro hc
    simp [APIBindingAwareCRDLister.get, hb, hf, hc]

/-- C8: on the normal single-cluster path (a successfully read binding
index): if the first matching bound resource of a completed binding has a
missing shadow CRD, `get` returns service-unavailable; if no completed
binding declares the requested `(group, resource)`, `get` falls back to the
local `(cluster, name)` schema and returns it, or not-found. -/
theorem get_normal_path_spec (L : APIBindingAwareCRDLister) (cl : LCluster)
    (name : String) (bindings : List APIBinding)
    (hb : L.apiBindingIndexByWorkspace (clusterString cl) = .ok bindings) :
    (∀ b r, findBound (crdNameToGroupResource name).1 (crdNameToGroupResource name).2
        bindings = some (b, r) →
      L.crdLister (toClusterAwareKey ShadowWorkspaceName r.schemaUID) = .error .notFound →
      L.get cl name = .error (.serviceUnavailable (name ++ " is currently unavailable"))) ∧
    ((∀ b ∈ bindings, b.initialBindingCompleted = true →
        ∀ x ∈ b.boundResources,
          ¬ (x.group = (crdNameToGroupResource name).1 ∧
             x.resource = (crdNameToGroupResource name).2)) →
      (∀ crd, L.crdLister (toClusterAwareKey cl name) = .ok crd → L.get cl name = .ok crd) ∧
      (L.crdLister (toClusterAwareKey cl name) = .error .notFound →
        L.get cl name = .error .notFound)) := by
  constructor
  · intro b r hf hc
    exact lister_get_of_bound_notFound L cl name bindings b r hb hf hc
  · intro hnone
    have hf : findBound (crdNameToGroupResource name).1 (crdNameToGroupResource name).2
        bindings = none :=
      (findBound_eq_none_iff _ _ bindings).mpr hnone
    exact lister_get_of_no_bound L cl name bindings hb hf

/-- A completed binding of workspace `root:w` bounding `(example.io,
widgets)` to a shadow schema that is absent from the store. -/
def bindingEx8 : APIBinding :=
  { clusterName := ["root", "w"], deletionTimestamp := none
    initialBindingCompleted := true
    boundResources := [⟨"example.io", "widgets", "su1", "ih1"⟩] }

/-- A lister whose binding index declares `widgets.example.io` but whose
store lacks the shadow CRD. -/
def listerEx8 : APIBindingAwareCRDLister :=
  { crdLister := fun k =>
      if k = "root:w|widgets.example.io" then .ok (crdEx ["root", "w"] "object")
      else .error .notFound
    crdIndexByWorkspace := fun _ => .ok []
    crdIndexByGroupResourceName := fun _ => .ok []
    apiBindingIndexByWorkspace := fun k =>
      if k = "root:w" then .ok [bindingEx8] else .ok []
    apiBindingIndexByIdentityGroupResource := fun _ => .ok []
    systemCRDProvider := pEx }

/-- Witness for C8: the declared-but-missing shadow CRD yields
service-unavailable. -/
theorem get_normal_path_spec_witness :
    listerEx8.get ["root", "w"] "widgets.example.io" =
      .error (.serviceUnavailable "widgets.example.io is currently unavailable") :=
  (get_normal_path_spec listerEx8 ["root", "w"] "widgets.example.io" [bindingEx8]
      (by decide)).1 bindingEx8 ⟨"example.io", "widgets", "su1", "ih1"⟩ (by decide) (by decide)

/-- C1: for a context with a cluster and an accept-header value, writing
`pm` for the request's partial-metadata flag: (1) `Get` returns at most one
schema; (2) a system hit is returned (projected if requested) before any
identity, wildcard, binding or local resolution is attempted; (3) the
system lookup is gated by the provider's `Keys` on non-wildcard clusters;
(4) when the system source yields not-found, on the non-wildcard
no-identity path a completed binding's shadow schema is returned decorated,
before the workspace-local schema is consulted. -/
theorem get_priority_chain (L : APIBindingAwareCRDLister) (ctx : Ctx) (name : String)
    (cl : LCluster) (a : String)
    (hcl : ctx.clusterName = some cl) (ha : ctx.acceptHeader = some a) :
    (∀ r₁ r₂, L.Get ctx name = some (.ok r₁) → L.Get ctx name = some (.ok r₂) → r₁ = r₂) ∧
    (∀ crd, L.getSystemCRD cl name = .ok crd →
      L.Get ctx name = some (.ok (projectIfPartial cl name
        (if a = "" then false else isPartialMetadataHeader a) crd))) ∧
    (cl ≠ WildcardCluster →
      (L.systemCRDProvider.Keys cl).contains
        (toClusterAwareKey SystemCRDLogicalCluster name) = false →
      L.getSystemCRD cl name = .error .notFound) ∧
    (L.getSystemCRD cl name = .error .notFound → ctx.identity = "" →
      cl ≠ WildcardCluster →
      ∀ bindings b r crd,
        L.apiBindingIndexByWorkspace (clusterString cl) = .ok bindings →
        findBound (crdNameToGroupResource name).1 (crdNameToGroupResource name).2
          bindings = some (b, r) →
        L.crdLister (toClusterAwareKey ShadowWorkspaceName r.schemaUID) = .ok crd →
        L.Get ctx name = some (.ok (projectIfPartial cl name
          (if a = "" then false else isPartialMetadataHeader a)
          (decorateCRDWithBinding crd r.identityHash b.deletionTimestamp)))) := by
  refine ⟨fun r₁ r₂ h₁ h₂ => ?_, fun crd hsys => ?_, fun hw hkeys => ?_,
    fun hsys hid hw bindings b r crd hb hf hc => ?_⟩
  · have := h₁.symm.trans h₂
    exact Except.ok.inj (Option.some.inj this)
  · simp [APIBindingAwareCRDLister.Get, hcl, hsys, isPartialMetadataRequestOpt, ha]
  · simp only [APIBindingAwareCRDLister.getSystemCRD, if_neg hw, hkeys]
    simp
  · have hget : L.get cl name =
        .ok (decorateCRDWithBinding crd r.identityHash b.deletionTimestamp) :=
      lister_get_of_bound_ok L cl name bindings b r crd hb hf hc
    simp [APIBindingAwareCRDLister.Get, hcl, hsys, isPartialMetadataRequestOpt, ha,
      hid, hw, hget]

/-- A system CRD resident in the system workspace. -/
def sysCRDEx : CRD :=
  { name := "clusterworkspaces.tenancy.kcp.dev"
    clusterName := SystemCRDLogicalCluster
    uid := "sys-uid-1", annotations := [], labels := []
    spec := ⟨"tenancy.kcp.dev", "clusterworkspaces", [⟨"v1alpha1", none⟩]⟩
    conditions := [], deletionTimestamp := none }

/-- A lister holding the `clusterworkspaces` system CRD. -/
def listerEx1 : APIBindingAwareCRDLister :=
  { crdLister := fun k =>
      if k = "system:system-crds|clusterworkspaces.tenancy.kcp.dev" then .ok sysCRDEx
      else .error .notFound
    crdIndexByWorkspace := fun _ => .ok []
    crdIndexByGroupResourceName := fun _ => .ok []
    apiBindingIndexByWorkspace := fun _ => .ok []
    apiBindingIndexByIdentityGroupResource := fun _ => .ok []
    systemCRDProvider := pEx }

/-- The root-cluster request context with an empty accept header. -/
def ctxEx1 : Ctx := ⟨some ["root"], "", some ""⟩

/-- Witness for C1: a system hit in the root cluster is returned by `Get`. -/
theorem get_priority_chain_witness :
    listerEx1.Get ctxEx1 "clusterworkspaces.tenancy.kcp.dev" =
      some (.ok (projectIfPartial ["root"] "clusterworkspaces.tenancy.kcp.dev"
        (if ("" : String) = "" then false else isPartialMetadataHeader "") sysCRDEx)) :=
  (get_priority_chain listerEx1 ctxEx1 "clusterworkspaces.tenancy.kcp.dev" ["root"] ""
    rfl rfl).2.1 sysCRDEx (by decide)

/-- C10: `Get` is total only on contexts that carry an accept-header value.
Whenever the execution reaches the partial-metadata check (the cluster
resolves and the system attempt yields a CRD or not-found), a context
without an accept-header value makes `Get` panic (`none`) on the unchecked
type assertion; with any string value (including the empty string) `Get`
never panics. -/
theorem get_accept_header_precondition (L : APIBindingAwareCRDLister) (ctx : Ctx)
    (name : String) (cl : LCluster) (hcl : ctx.clusterName = some cl) :
    (ctx.acceptHeader = none →
      (L.getSystemCRD cl name = .error .notFound ∨
        (∃ crd, L.getSystemCRD cl name = .ok crd)) →
      L.Get ctx name = none) ∧
    (∀ a, ctx.acceptHeader = some a → L.Get ctx name ≠ none) := by
  constructor
  · intro hacc hreach
    have hiso : isPartialMetadataRequestOpt ctx = none := by
      simp [isPartialMetadataRequestOpt, hacc]
    rcases hreach with hs | ⟨crd, hs⟩
    · simp [APIBindingAwareCRDLister.Get, hcl, hs, hiso]
    · simp [APIBindingAwareCRDLister.Get, hcl, hs, hiso]
  · intro a ha
    have hiso : isPartialMetadataRequestOpt ctx =
        some (if a = "" then false else isPartialMetadataHeader a) := by
      simp [isPartialMetadataRequestOpt, ha]
    cases hs : L.getSystemCRD cl name with
    | ok crd => simp [APIBindingAwareCRDLister.Get, hcl, hs, hiso]
    | error e =>
      by_cases he : e = KErr.notFound
      · subst he
        simp only [APIBindingAwareCRDLister.Get, hcl, hs, hiso, reduceIte]
        split <;> simp
      · simp [APIBindingAwareCRDLister.Get, hcl, hs, hiso, he]

/-- Witness for C10: the same store and name, with and without an
accept-header context value. -/
theorem get_accept_header_precondition_witness :
    listerEx8.Get ⟨some ["root", "w"], "", none⟩ "widgets.example.io" = none ∧
    listerEx8.Get ⟨some ["root", "w"], "", some ""⟩ "widgets.example.io" ≠ none :=
  ⟨(get_accept_header_precondition listerEx8 ⟨some ["root", "w"], "", none⟩
      "widgets.example.io" ["root", "w"] rfl).1 rfl (.inl (by decide)),
   (get_accept_header_precondition listerEx8 ⟨some ["root", "w"], "", some ""⟩
      "widgets.example.io" ["root", "w"] rfl).2 "" rfl⟩

/-- Reading a cons cell whose head matches. -/
theorem getAnn_cons_pos (q : String × String) (l : List (String × String)) (k : String)
    (h : (q.1 == k) = true) : getAnn (q :: l) k = some q.2 := by
  unfold getAnn
  rw [List.find?_cons_of_pos (p := fun r => r.1 == k) l h]
  rfl

/-- Reading a cons cell whose head does not match. -/
theorem getAnn_cons_neg (q : String × String) (l : List (String × String)) (k : String)
    (h : (q.1 == k) = false) : getAnn (q :: l) k = getAnn l k := by
  unfold getAnn
  rw [List.find?_cons_of_neg (p := fun r => r.1 == k) l (by simp [h])]

/-- Writing a key makes it readable with the written value. -/
theorem getAnn_setAnn_self : ∀ (l : List (String × String)) (k v : String),
    getAnn (setAnn l k v) k = some v := by
  intro l k v
  induction l with
  | nil =>
    show getAnn [(k, v)] k = some v
    exact getAnn_cons_pos (k, v) [] k (by simp)
  | cons p ps ih =>
    by_cases hp : (p.1 == k) = true
    · have hany : ((p :: ps).any fun q => q.1 == k) = true := by simp [List.any_cons, hp]
      have hmap : setAnn (p :: ps) k v =
          (k, v) :: ps.map (fun q => if q.1 == k then (k, v) else q) := by
        simp only [setAnn, hany, if_true, List.map_cons, hp]
      rw [hmap]
      exact getAnn_cons_pos (k, v) _ k (by simp)
    · have hpf : (p.1 == k) = false := by simpa using hp
      have hpd : ¬ p.1 = k := by simpa using hp
      have hstep : setAnn (p :: ps) k v = p :: setAnn ps k v := by
        by_cases hany : (ps.any fun q => q.1 == k) = true
        · simp [setAnn, List.any_cons, hpf, hpd, hany]
        · simp [setAnn, List.any_cons, hpf, hpd, hany]
      rw [hstep, getAnn_cons_neg p _ k hpf]
      exact ih

/-- Writing one key leaves reads of a different key unchanged. -/
theorem getAnn_setAnn_ne (k k' v : String) (hne : k' ≠ k) :
    ∀ l : List (String × String), getAnn (setAnn l k v) k' = getAnn l k' := by
  have h1 : (((k : String) == k')) = false := by
    simp only [beq_eq_false_iff_ne, ne_eq]
    exact fun h => hne h.symm
  intro l
  induction l with
  | nil =>
    show getAnn [(k, v)] k' = getAnn [] k'
    rw [getAnn_cons_neg (k, v) [] k' h1]
  | cons p ps ih =>
    by_cases hp : (p.1 == k) = true
    · have hpk : p.1 = k := by simpa using hp
      have hany : ((p :: ps).any fun q => q.1 == k) = true := by simp [List.any_cons, hp]
      have hmap : setAnn (p :: ps) k v =
          (k, v) :: ps.map (fun q => if q.1 == k then (k, v) else q) := by
        simp only [setAnn, hany, if_true, List.map_cons, hp]
      have hmap' : getAnn (setAnn ps k v) k' = getAnn ps k' := ih
      by_cases hanyps : (ps.any fun q => q.1 == k) = true
      · have : setAnn ps k v = ps.map (fun q => if q.1 == k then (k, v) else q) := by
          simp only [setAnn, hanyps, if_true]
        rw [hmap, getAnn_cons_neg _ _ k' h1, ← this, hmap',
          ← getAnn_cons_neg p ps k' (by rw [hpk]; exact h1)]
      · have hid : ps.map (fun q => if q.1 == k then (k, v) else q) = List.map id ps := by
          apply List.map_congr_left
          intro q hq
          have hq' : (q.1 == k) = false := by
            by_contra hcon
            exact hanyps (List.any_eq_true.mpr ⟨q, hq, by simpa using hcon⟩)
          simp [hq']
        rw [hmap, getAnn_cons_neg _ _ k' h1, hid, List.map_id,
          ← getAnn_cons_neg p ps k' (by rw [hpk]; exact h1)]
    · have hpf : (p.1 == k) = false := by simpa using hp
      have hpd : ¬ p.1 = k := by simpa using hp
      have hstep : setAnn (p :: ps) k v = p :: setAnn ps k v := by
        by_cases hany : (ps.any fun q => q.1 == k) = true
        · simp [setAnn, List.any_cons, hpf, hpd, hany]
        · simp [setAnn, List.any_cons, hpf, hpd, hany]
      by_cases hp' : (p.1 == k') = true
      · rw [hstep, getAnn_cons_pos p _ k' hp', getAnn_cons_pos p ps k' hp']
      · have hp'f : (p.1 == k') = false := by simpa using hp'
        rw [hstep, getAnn_cons_neg p _ k' hp'f, getAnn_cons_neg p ps k' hp'f]
        exact ih

/-- Map membership is read success. -/
theorem hasAnn_eq_isSome (k : String) : ∀ l : List (String × String),
    hasAnn l k = (getAnn l k).isSome := by
  intro l
  induction l with
  | nil => rfl
  | cons q qs ih =>
    by_cases hq : (q.1 == k) = true
    · rw [getAnn_cons_pos q qs k hq]
      simp [hasAnn, List.any_cons, hq]
    · have hqf : (q.1 == k) = false := by simpa using hq
      rw [getAnn_cons_neg q qs k hqf, ← ih]
      simp [hasAnn, List.any_cons, hqf]

/-- Writing a key makes it present. -/
theorem hasAnn_setAnn_self (l : List (String × String)) (k v : String) :
    hasAnn (setAnn l k v) k = true := by
  rw [hasAnn_eq_isSome, getAnn_setAnn_self]
  rfl

/-- On values, the shallow copy with deep-copied annotations is the
identity. -/
theorem shallowCopy_eq (c : CRD) : shallowCopyCRDAndDeepCopyAnnotations c = c := rfl

/-- Decoration writes exactly the identity annotation into the annotations
map. -/
theorem decorate_annotations (S : CRD) (id : String) (dt : Option Nat) :
    (decorateCRDWithBinding S id dt).annotations =
      setAnn S.annotations AnnotationAPIIdentityKey id := by
  by_cases hdt : dt = none
  · simp [decorateCRDWithBinding, shallowCopyCRDAndDeepCopyAnnotations, hdt]
  · simp only [decorateCRDWithBinding, shallowCopyCRDAndDeepCopyAnnotations, hdt, if_false,
      setCRDCondition]
    split <;> rfl

/-- Decoration does not change the schema name. -/
theorem decorate_name (S : CRD) (id : String) (dt : Option Nat) :
    (decorateCRDWithBinding S id dt).name = S.name := by
  by_cases hdt : dt = none
  · simp [decorateCRDWithBinding, shallowCopyCRDAndDeepCopyAnnotations, hdt]
  · simp only [decorateCRDWithBinding, shallowCopyCRDAndDeepCopyAnnotations, hdt, if_false,
      setCRDCondition]
    split <;> rfl

/-- Decoration does not change the owning workspace. -/
theorem decorate_clusterName (S : CRD) (id : String) (dt : Option Nat) :
    (decorateCRDWithBinding S id dt).clusterName = S.clusterName := by
  by_cases hdt : dt = none
  · simp [decorateCRDWithBinding, shallowCopyCRDAndDeepCopyAnnotations, hdt]
  · simp only [decorateCRDWithBinding, shallowCopyCRDAndDeepCopyAnnotations, hdt, if_false,
      setCRDCondition]
    split <;> rfl

/-- When the input carries a non-empty identity annotation, the refresh
body re-applies it on the refreshed copy. -/
theorem refreshCore_identity_pres (crd updated : CRD)
    (hid : getAnnD crd.annotations AnnotationAPIIdentityKey ≠ "") :
    getAnn (refreshCore crd updated).annotations AnnotationAPIIdentityKey =
      some (getAnnD crd.annotations AnnotationAPIIdentityKey) := by
  have hne : AnnotationAPIIdentityKey ≠ annotationKeyPartialMetadata := by decide
  by_cases hpm : hasAnn crd.annotations annotationKeyPartialMetadata = true
  · by_cases hsuf : strHasSuffix crd.uid ".wildcard.partial-metadata" = true
    · simp only [refreshCore, shallowCopy_eq, if_pos hid, hpm, hsuf, reduceIte,
        makePartialMetadataCRD]
      simp [getAnn_setAnn_ne annotationKeyPartialMetadata AnnotationAPIIdentityKey "" hne,
        getAnn_setAnn_self]
    · have hsuff : strHasSuffix crd.uid ".wildcard.partial-metadata" = false := by
        simpa using hsuf
      simp only [refreshCore, shallowCopy_eq, if_pos hid, hpm, hsuff, reduceIte,
        makePartialMetadataCRD]
      simp [getAnn_setAnn_ne annotationKeyPartialMetadata AnnotationAPIIdentityKey "" hne,
        getAnn_setAnn_self]
  · have hpmf : hasAnn crd.annotations annotationKeyPartialMetadata = false := by
      simpa using hpm
    simp only [refreshCore, shallowCopy_eq, if_pos hid, hpmf, reduceIte]
    simp [getAnn_setAnn_self]

/-- When the input was projected, the refresh body re-applies the marker,
the minimal version schemas, and (when the input's UID bears the wildcard
suffix) the UID. -/
theorem refreshCore_marker_pres (crd updated : CRD)
    (hpm : hasAnn crd.annotations annotationKeyPartialMetadata = true) :
    hasAnn (refreshCore crd updated).annotations annotationKeyPartialMetadata = true ∧
    (∀ v ∈ (refreshCore crd updated).spec.versions, v.schema = some ⟨"object", []⟩) ∧
    (strHasSuffix crd.uid ".wildcard.partial-metadata" = true →
      (refreshCore crd updated).uid = crd.uid) := by
  by_cases hid : getAnnD crd.annotations AnnotationAPIIdentityKey = ""
  · have hidn : ¬ (getAnnD crd.annotations AnnotationAPIIdentityKey ≠ "") := by simp [hid]
    by_cases hsuf : strHasSuffix crd.uid ".wildcard.partial-metadata" = true
    · simp only [refreshCore, shallowCopy_eq, if_neg hidn, hpm, hsuf, reduceIte,
        makePartialMetadataCRD]
      refine ⟨hasAnn_setAnn_self _ _ _, ?_, fun _ => by trivial⟩
      intro v hv
      rcases List.mem_map.mp hv with ⟨w, _, hw⟩
      simp [← hw]
    · have hsuff : strHasSuffix crd.uid ".wildcard.partial-metadata" = false := by
        simpa using hsuf
      simp only [refreshCore, shallowCopy_eq, if_neg hidn, hpm, hsuff, reduceIte,
        makePartialMetadataCRD]
      refine ⟨hasAnn_setAnn_self _ _ _, ?_, fun hcon => by simp [hsuff] at hcon⟩
      intro v hv
      rcases List.mem_map.mp hv with ⟨w, _, hw⟩
      simp [← hw]
  · have hidp : getAnnD crd.annotations AnnotationAPIIdentityKey ≠ "" := hid
    by_cases hsuf : strHasSuffix crd.uid ".wildcard.partial-metadata" = true
    · simp only [refreshCore, shallowCopy_eq, if_pos hidp, hpm, hsuf, reduceIte,
        makePartialMetadataCRD]
      refine ⟨hasAnn_setAnn_self _ _ _, ?_, fun _ => by trivial⟩
      intro v hv
      rcases List.mem_map.mp hv with ⟨w, _, hw⟩
      simp [← hw]
    · have hsuff : strHasSuffix crd.uid ".wildcard.partial-metadata" = false := by
        simpa using hsuf
      simp only [refreshCore, shallowCopy_eq, if_pos hidp, hpm, hsuff, reduceIte,
        makePartialMetadataCRD]
      refine ⟨hasAnn_setAnn_self _ _ _, ?_, fun hcon => by simp [hsuff] at hcon⟩
      intro v hv
      rcases List.mem_map.mp hv with ⟨w, _, hw⟩
      simp [← hw]

/-- C9 (amended): over a successful store re-fetch, `Refresh` preserves the
input's identity annotation when non-empty, re-applies the partial-metadata
projection when the input carries the marker, preserves the input's UID
when the input carries the marker and its UID ends with
`.wildcard.partial-metadata`, and `Refresh(decorate(S, id))` carries the
`id` annotation for non-empty `id` regardless of the store copy's
contents. -/
theorem refresh_preservation_spec (L : APIBindingAwareCRDLister) (crd updated refreshed : CRD)
    (hst : L.crdLister (toClusterAwareKey crd.clusterName crd.name) = .ok updated)
    (href : L.Refresh crd = .ok refreshed) :
    (getAnnD crd.annotations AnnotationAPIIdentityKey ≠ "" →
      getAnn refreshed.annotations AnnotationAPIIdentityKey =
        some (getAnnD crd.annotations AnnotationAPIIdentityKey)) ∧
    (hasAnn crd.annotations annotationKeyPartialMetadata = true →
      hasAnn refreshed.annotations annotationKeyPartialMetadata = true ∧
      (∀ v ∈ refreshed.spec.versions, v.schema = some ⟨"object", []⟩) ∧
      (strHasSuffix crd.uid ".wildcard.partial-metadata" = true →
        refreshed.uid = crd.uid)) ∧
    (∀ S id dt, id ≠ "" → crd = decorateCRDWithBinding S id dt →
      getAnn refreshed.annotations AnnotationAPIIdentityKey = some id) := by
  have hr : refreshed = refreshCore crd updated := by
    simp only [APIBindingAwareCRDLister.Refresh, hst] at href
    exact (Except.ok.inj href).symm
  subst hr
  refine ⟨fun hid => refreshCore_identity_pres crd updated hid,
    fun hpm => refreshCore_marker_pres crd updated hpm, ?_⟩
  intro S id dt hneid hdeco
  have hann : getAnnD crd.annotations AnnotationAPIIdentityKey = id := by
    rw [hdeco, decorate_annotations]
    unfold getAnnD
    rw [getAnn_setAnn_self]
    rfl
  rw [refreshCore_identity_pres crd updated (by rw [hann]; exact hneid), hann]

/-- A non-projected input whose UID nevertheless bears the
wildcard-partial-metadata suffix. -/
def crd9In : CRD :=
  { name := "widgets.example.io", clusterName := ["root", "w"]
    uid := "widgets.example.io.wildcard.partial-metadata"
    annotations := [], labels := [], spec := specEx "object"
    conditions := [], deletionTimestamp := none }

/-- C9 counterexample: the claim's unconditional UID clause fails.  The
input's UID ends with `.wildcard.partial-metadata`, but because the input
does not carry the partial-metadata marker annotation, `Refresh` returns
the store copy's UID, not the input's. -/
theorem refresh_uid_clause_counterexample :
    strHasSuffix crd9In.uid ".wildcard.partial-metadata" = true ∧
    listerEx8.Refresh crd9In = .ok (crdEx ["root", "w"] "object") ∧
    ¬ (crdEx ["root", "w"] "object").uid = crd9In.uid := by decide

/-- A projected, identity-decorated input for the C9 witness. -/
def crd9Pm : CRD :=
  { name := "widgets.example.io", clusterName := ["root", "w"]
    uid := "widgets.example.io.wildcard.partial-metadata"
    annotations := [(AnnotationAPIIdentityKey, "idX"), (annotationKeyPartialMetadata, "")]
    labels := [], spec := specEx "object"
    conditions := [], deletionTimestamp := none }

/-- Witness for C9: the identity annotation of a concrete projected input
is preserved across `Refresh`. -/
theorem refresh_preservation_spec_witness :
    getAnn (refreshCore crd9Pm (crdEx ["root", "w"] "object")).annotations
        AnnotationAPIIdentityKey =
      some (getAnnD crd9Pm.annotations AnnotationAPIIdentityKey) :=
  (refresh_preservation_spec listerEx8 crd9Pm (crdEx ["root", "w"] "object")
    (refreshCore crd9Pm (crdEx ["root", "w"] "object")) (by decide) (by decide)).1 (by decide)

/-- C7: error policy of `List`.  An error from the system-registry pass, the
binding-index read, or the local-workspace index read fails the whole call
with that error; when all three succeed, `List` succeeds no matter how the
individual shadow-CRD fetches of the binding pass behave (they are logged
and skipped), and every selector-matching local schema whose name has not
been claimed by the earlier passes is still returned. -/
theorem list_partial_failure_policy (L : APIBindingAwareCRDLister) (ctx : Ctx)
    (cl : LCluster) (selector : List (String × String) → Bool)
    (hcl : ctx.clusterName = some cl) :
    (∀ e, L.systemCRDProvider.ListCRDs cl = .error e → L.List ctx selector = .error e) ∧
    (∀ e sysCRDs, L.systemCRDProvider.ListCRDs cl = .ok sysCRDs →
      L.apiBindingIndexByWorkspace (clusterString cl) = .error e →
      L.List ctx selector = .error e) ∧
    (∀ e sysCRDs bindings, L.systemCRDProvider.ListCRDs cl = .ok sysCRDs →
      L.apiBindingIndexByWorkspace (clusterString cl) = .ok bindings →
      L.crdIndexByWorkspace (clusterString cl) = .error e →
      L.List ctx selector = .error e) ∧
    (∀ sysCRDs bindings locals, L.systemCRDProvider.ListCRDs cl = .ok sysCRDs →
      L.apiBindingIndexByWorkspace (clusterString cl) = .ok bindings →
      L.crdIndexByWorkspace (clusterString cl) = .ok locals →
      ∃ ret, L.List ctx selector = .ok ret ∧
        ∀ crd ∈ locals, selector crd.labels = true →
          (listBindingPass L selector bindings
            (sysCRDs, sysCRDs.map crdDedupName)).2.contains (crdDedupName crd) = false →
          crd ∈ ret) := by
  refine ⟨fun e hsys => ?_, fun e sysCRDs hsys hb => ?_,
    fun e sysCRDs bindings hsys hb hloc => ?_,
    fun sysCRDs bindings locals hsys hb hloc => ?_⟩
  · simp [APIBindingAwareCRDLister.List, hcl, hsys]
  · simp [APIBindingAwareCRDLister.List, hcl, hsys, hb]
  · simp [APIBindingAwareCRDLister.List, hcl, hsys, hb, hloc]
  · refine ⟨(listBindingPass L selector bindings (sysCRDs, sysCRDs.map crdDedupName)).1 ++
      locals.filter (fun crd => selector crd.labels &&
        ¬ (listBindingPass L selector bindings
          (sysCRDs, sysCRDs.map crdDedupName)).2.contains (crdDedupName crd)), ?_, ?_⟩
    · simp [APIBindingAwareCRDLister.List, hcl, hsys, hb, hloc]
    · intro crd hmem hsel hcont
      refine List.mem_append.mpr (.inr (List.mem_filter.mpr ⟨hmem, ?_⟩))
      have hnm : crdDedupName crd ∉
          (listBindingPass L selector bindings (sysCRDs, sysCRDs.map crdDedupName)).2 := by
        have h' : (listBindingPass L selector bindings
            (sysCRDs, sysCRDs.map crdDedupName)).2.elem (crdDedupName crd) = false := hcont
        rw [List.elem_eq_mem] at h'
        exact of_decide_eq_false h'
      simp [hsel, hcont, hnm]

/-- A system provider whose workspace lookup always misses: every
non-root cluster sees an empty system key set. -/
def pEmpty : SystemCRDProvider :=
  { commonCRDs := [], rootCRDs := [], orgCRDs := [], universalCRDs := []
    getClusterWorkspace := fun _ => .error .notFound
    getCRD := fun _ => .error .notFound }

/-- A completed binding with one broken and one intact bound resource. -/
def binding7 : APIBinding :=
  { clusterName := ["root", "w"], deletionTimestamp := none
    initialBindingCompleted := true
    boundResources := [⟨"example.io", "widgets", "missing", "ih1"⟩,
                       ⟨"example.io", "widgets", "su1", "ih1"⟩] }

/-- A workspace-local CRD named differently from the bound one. -/
def local7 : CRD :=
  { name := "gadgets.example.io", clusterName := ["root", "w"], uid := "uid-l7"
    annotations := [], labels := [], spec := ⟨"example.io", "gadgets", [⟨"v1", none⟩]⟩
    conditions := [], deletionTimestamp := none }

/-- A lister whose binding pass hits one missing shadow CRD. -/
def listerEx7 : APIBindingAwareCRDLister :=
  { crdLister := fun k =>
      if k = "system:bound-crds|su1" then .ok (crdEx ShadowWorkspaceName "object")
      else .error .notFound
    crdIndexByWorkspace := fun k => if k = "root:w" then .ok [local7] else .ok []
    crdIndexByGroupResourceName := fun _ => .ok []
    apiBindingIndexByWorkspace := fun k => if k = "root:w" then .ok [binding7] else .ok []
    apiBindingIndexByIdentityGroupResource := fun _ => .ok []
    systemCRDProvider := pEmpty }

/-- Witness for C7: with a broken shadow fetch in the binding pass, `List`
still succeeds and still returns the local schema. -/
theorem list_partial_failure_policy_witness :
    ∃ ret, listerEx7.List ⟨some ["root", "w"], "", some ""⟩ (fun _ => true) = .ok ret ∧
      ∀ crd ∈ [local7], (fun (_ : List (String × String)) => true) crd.labels = true →
        (listBindingPass listerEx7 (fun _ => true) [binding7]
          (([] : List CRD), ([] : List CRD).map crdDedupName)).2.contains
            (crdDedupName crd) = false →
        crd ∈ ret :=
  (list_partial_failure_policy listerEx7 ⟨some ["root", "w"], "", some ""⟩ ["root", "w"]
    (fun _ => true) rfl).2.2.2 [] [binding7] [local7] (by decide) (by decide) (by decide)

namespace Alias

/-!
Memory-explicit model of the pointer structure of `Get`, for the aliasing
claim about annotations maps.  Every annotations map lives in a heap cell
addressed by a natural number; a CRD carries the address of its map
(`annRef`), and the spec payload is abstracted to a number (`specId`) since
the heap claim is about the annotations only.  `shallowCopyCRDAndDeepCopy`
`Annotations` allocates a new cell at the allocation cursor `f` and copies
the pointee; every other operation mirrors the corresponding source
function of `apiBindingAwareCRDLister`.
-/

/-- The heap of annotation maps. -/
abbrev Heap := Nat → List (String × String)

/-- A CRD with its annotations map held by reference. -/
structure ACRD where
  name : String
  clusterName : LCluster
  uid : String
  specId : Nat
  labels : List (String × String)
  annRef : Nat
deriving DecidableEq, Repr

/-- The stores `Get` consults, holding reference-carrying CRDs. -/
structure AStore where
  crdLister : String → Except KErr ACRD
  crdIndexByGroupResourceName : String → Except KErr (List ACRD)
  apiBindingIndexByWorkspace : String → Except KErr (List APIBinding)
  apiBindingIndexByIdentityGroupResource : String → Except KErr (List APIBinding)
  sysProvider : SystemCRDProvider

/-- An address the store can reach: the annotations map of some CRD
readable through the lister or the `byGroupResourceName` index. -/
def storeRef (st : AStore) (r : Nat) : Prop :=
  (∃ k c, st.crdLister k = .ok c ∧ c.annRef = r) ∨
  (∃ k l c, st.crdIndexByGroupResourceName k = .ok l ∧ c ∈ l ∧ c.annRef = r)

/-- `shallowCopyCRDAndDeepCopyAnnotations`: allocate a fresh cell and copy
the annotations into it. -/
def ashallowCopy (h : Heap) (f : Nat) (c : ACRD) : ACRD × Heap × Nat :=
  ({ c with annRef := f }, fun r => if r = f then h c.annRef else h r, f + 1)

/-- `decorateCRDWithBinding` (its annotations effect): copy into a fresh
cell and write the identity annotation there (the conditions and deletion
timestamp it also sets are value fields, not heap cells). -/
def adecorate (h : Heap) (f : Nat) (c : ACRD) (identity : String) : ACRD × Heap × Nat :=
  ({ c with annRef := f },
   fun r => if r = f then setAnn (h c.annRef) AnnotationAPIIdentityKey identity else h r,
   f + 1)

/-- `makePartialMetadataCRD` (its annotations effect): write the marker into
the CRD's own cell (the version schemas it replaces are value fields). -/
def amakePartialMetadata (h : Heap) (c : ACRD) : Heap :=
  fun r => if r = c.annRef then setAnn (h c.annRef) annotationKeyPartialMetadata "" else h r

/-- `getSystemCRD`. -/
def agetSystemCRD (st : AStore) (cl : LCluster) (name : String) : Except KErr ACRD :=
  if cl = WildcardCluster then
    st.crdLister (toClusterAwareKey SystemCRDLogicalCluster name)
  else if (st.sysProvider.Keys cl).contains (toClusterAwareKey SystemCRDLogicalCluster name)
  then st.crdLister (toClusterAwareKey SystemCRDLogicalCluster name)
  else .error .notFound

/-- `getForIdentity`. -/
def agetForIdentity (st : AStore) (h : Heap) (f : Nat) (name identity : String) :
    Except KErr ACRD × Heap × Nat :=
  let gr := crdNameToGroupResource name
  match st.apiBindingIndexByIdentityGroupResource
      (identityGroupResourceKey identity gr.1 gr.2) with
  | .error e => (.error e, h, f)
  | .ok [] => (.error .notFound, h, f)
  | .ok (apiBinding :: _) =>
    match apiBinding.boundResources.find? (fun r =>
        r.group == gr.1 && r.resource == gr.2 && r.identityHash == identity) with
    | none => (.error .notFound, h, f)
    | some r =>
      if r.schemaUID = "" then (.error .notFound, h, f)
      else
        match st.crdLister (toClusterAwareKey ShadowWorkspaceName r.schemaUID) with
        | .error e => (.error e, h, f)
        | .ok crd =>
          let s := adecorate h f crd identity
          (.ok s.1, s.2.1, s.2.2)

/-- `getForWildcardPartialMetadata` (returns the cached object itself). -/
def agetForWildcardPartialMetadata (st : AStore) (name : String) : Except KErr ACRD :=
  match st.crdIndexByGroupResourceName name with
  | .error e => .error e
  | .ok [] => .error .notFound
  | .ok (crd :: _) => .ok crd

/-- The loop of `getForFullDataWildcard` over the abstract spec payload. -/
def apickUniform (found : Option ACRD) : List ACRD → Except KErr (Option ACRD)
  | [] => .ok found
  | crd :: rest =>
    match found with
    | none => apickUniform (some crd) rest
    | some fd =>
      if fd.specId = crd.specId then apickUniform found rest
      else .error (.internalError wildcardDivergenceMsg)

/-- `getForFullDataWildcard` (returns the cached object itself). -/
def agetForFullDataWildcard (st : AStore) (name : String) : Except KErr ACRD :=
  match st.crdIndexByGroupResourceName name with
  | .error e => .error e
  | .ok objs =>
    match apickUniform none objs with
    | .error e => .error e
    | .ok none => .error .notFound
    | .ok (some foundCRD) => .ok foundCRD

/-- The normal single-cluster `get`: decorated shadow CRD from a completed
binding, falling back to the cached local object itself. -/
def agetNormal (st : AStore) (h : Heap) (f : Nat) (cl : LCluster) (name : String) :
    Except KErr ACRD × Heap × Nat :=
  let gr := crdNameToGroupResource name
  match st.apiBindingIndexByWorkspace (clusterString cl) with
  | .error e => (.error e, h, f)
  | .ok bindings =>
    match findBound gr.1 gr.2 bindings with
    | some (_, boundResource) =>
      match st.crdLister (toClusterAwareKey ShadowWorkspaceName boundResource.schemaUID) with
      | .error .notFound =>
        (.error (.serviceUnavailable (name ++ " is currently unavailable")), h, f)
      | .error e => (.error e, h, f)
      | .ok crd =>
        let s := adecorate h f crd boundResource.identityHash
        (.ok s.1, s.2.1, s.2.2)
    | none =>
      match st.crdLister (toClusterAwareKey cl name) with
      | .error .notFound => (.error .notFound, h, f)
      | .error e => (.error e, h, f)
      | .ok crd => (.ok crd, h, f)

/-- The projection at the end of `Get`: with a partial-metadata request,
shallow copy into a fresh cell, write the marker there, and set the
wildcard UID; otherwise return the object unchanged (aliased). -/
def aprojectIfPartial (h : Heap) (f : Nat) (cl : LCluster) (name : String) (pm : Bool)
    (c : ACRD) : ACRD × Heap × Nat :=
  if pm then
    let s := ashallowCopy h f c
    let h2 := amakePartialMetadata s.2.1 s.1
    let c2 := if cl = WildcardCluster then
        { s.1 with uid := name ++ ".wildcard.partial-metadata" }
      else s.1
    (c2, h2, s.2.2)
  else (c, h, f)

/-- `Get` with the heap threaded through: result (with the panic `Option`
layer), the heap after the call, and the allocation cursor after the
call. -/
def AGet (st : AStore) (h : Heap) (f : Nat) (ctx : Ctx) (name : String) :
    Option (Except KErr ACRD) × Heap × Nat :=
  match ctx.clusterName with
  | none => (some (.error (.other "no cluster in context")), h, f)
  | some cl =>
    match agetSystemCRD st cl name with
    | .ok crd =>
      match isPartialMetadataRequestOpt ctx with
      | none => (none, h, f)
      | some pm =>
        let t := aprojectIfPartial h f cl name pm crd
        (some (.ok t.1), t.2.1, t.2.2)
    | .error e =>
      if e = .notFound then
        match isPartialMetadataRequestOpt ctx with
        | none => (none, h, f)
        | some pm =>
          if ctx.identity != "" then
            let s := agetForIdentity st h f name ctx.identity
            match s.1 with
            | .error e' => (some (.error e'), s.2.1, s.2.2)
            | .ok crd =>
              let t := aprojectIfPartial s.2.1 s.2.2 cl name pm crd
              (some (.ok t.1), t.2.1, t.2.2)
          else if (cl == WildcardCluster) && pm then
            match agetForWildcardPartialMetadata st name with
            | .error e' => (some (.error e'), h, f)
            | .ok crd =>
              let t := aprojectIfPartial h f cl name pm crd
              (some (.ok t.1), t.2.1, t.2.2)
          else if cl == WildcardCluster then
            match agetForFullDataWildcard st name with
            | .error e' => (some (.error e'), h, f)
            | .ok crd =>
              let t := aprojectIfPartial h f cl name pm crd
              (some (.ok t.1), t.2.1, t.2.2)
          else
            let s := agetNormal st h f cl name
            match s.1 with
            | .error e' => (some (.error e'), s.2.1, s.2.2)
            | .ok crd =>
              let t := aprojectIfPartial s.2.1 s.2.2 cl name pm crd
              (some (.ok t.1), t.2.1, t.2.2)
      else (some (.error e), h, f)

/-- The observable result of a `Get`: the returned CRD together with the
contents of its annotations map after the call. -/
def AGetObs (st : AStore) (h : Heap) (f : Nat) (ctx : Ctx) (name : String) :
    Option (Except KErr (ACRD × List (String × String))) :=
  (AGet st h f ctx name).1.map fun res =>
    res.map fun crd => (crd, (AGet st h f ctx name).2.1 crd.annRef)

/-- A caller mutating the annotations map it was handed:
`returned.Annotations[k] = v`. -/
def mutateAnn (h : Heap) (r : Nat) (k v : String) : Heap :=
  fun r' => if r' = r then setAnn (h r) k v else h r'

/-- A store whose local workspace `root:w` holds one CRD whose annotations
live at address 0. -/
def acrd0 : ACRD :=
  { name := "widgets.example.io", clusterName := ["root", "w"], uid := "uid0"
    specId := 0, labels := [], annRef := 0 }

/-- The one-CRD store of the counterexample. -/
def astEx : AStore :=
  { crdLister := fun k =>
      if k = "root:w|widgets.example.io" then .ok acrd0 else .error .notFound
    crdIndexByGroupResourceName := fun _ => .ok []
    apiBindingIndexByWorkspace := fun _ => .ok []
    apiBindingIndexByIdentityGroupResource := fun _ => .ok []
    sysProvider := pEmpty }

/-- The initial heap of the counterexample: cell 0 holds `{"a": "1"}`. -/
def heap0 : Heap := fun _ => [("a", "1")]

/-- The local-path, non-partial-metadata request context. -/
def ctxLocal : Ctx := ⟨some ["root", "w"], "", some ""⟩

/-- C5 counterexample: on the local-workspace path of a non-partial-metadata
request, `Get` returns the cached object itself (`annRef 0`, the store's
cell), and mutating the returned annotations map changes the result of the
subsequent identical `Get`. -/
theorem get_annotations_alias_counterexample :
    (AGet astEx heap0 1 ctxLocal "widgets.example.io").1 = some (.ok acrd0) ∧
    AGetObs astEx (mutateAnn heap0 acrd0.annRef "a" "2") 1 ctxLocal "widgets.example.io" ≠
      AGetObs astEx heap0 1 ctxLocal "widgets.example.io" := by
  decide

/-- With no projection, `aprojectIfPartial` is the identity. -/
theorem aproject_false (h : Heap) (f : Nat) (cl : LCluster) (name : String) (c : ACRD) :
    aprojectIfPartial h f cl name false c = (c, h, f) := rfl

/-- With projection, the returned CRD's annotations live at the allocation
cursor. -/
theorem aproject_true_annRef (h : Heap) (f : Nat) (cl : LCluster) (name : String)
    (c : ACRD) : (aprojectIfPartial h f cl name true c).1.annRef = f := by
  by_cases hw : cl = WildcardCluster
  · simp [aprojectIfPartial, ashallowCopy, hw]
  · simp [aprojectIfPartial, ashallowCopy, hw]

/-- With projection, the cursor advances by one. -/
theorem aproject_true_fresh (h : Heap) (f : Nat) (cl : LCluster) (name : String)
    (c : ACRD) : (aprojectIfPartial h f cl name true c).2.2 = f + 1 := by
  by_cases hw : cl = WildcardCluster
  · simp [aprojectIfPartial, ashallowCopy, hw]
  · simp [aprojectIfPartial, ashallowCopy, hw]

/-- The projection's observable effect depends on the input heap only at
the input CRD's cell. -/
theorem aproject_congr (h₁ h₂ : Heap) (f : Nat) (cl : LCluster) (name : String)
    (pm : Bool) (c : ACRD) (hc : h₁ c.annRef = h₂ c.annRef) :
    (aprojectIfPartial h₁ f cl name pm c).1 = (aprojectIfPartial h₂ f cl name pm c).1 ∧
    (aprojectIfPartial h₁ f cl name pm c).2.2 = (aprojectIfPartial h₂ f cl name pm c).2.2 ∧
    (aprojectIfPartial h₁ f cl name pm c).2.1 (aprojectIfPartial h₁ f cl name pm c).1.annRef =
      (aprojectIfPartial h₂ f cl name pm c).2.1
        (aprojectIfPartial h₂ f cl name pm c).1.annRef := by
  cases pm with
  | false => exact ⟨rfl, rfl, hc⟩
  | true =>
    by_cases hw : cl = WildcardCluster
    · refine ⟨by simp [aprojectIfPartial, ashallowCopy, hw], rfl, ?_⟩
      simp [aprojectIfPartial, ashallowCopy, amakePartialMetadata, hw, hc]
    · refine ⟨by simp [aprojectIfPartial, ashallowCopy, hw], rfl, ?_⟩
      simp [aprojectIfPartial, ashallowCopy, amakePartialMetadata, hw, hc]

/-- A CRD returned by the system lookup is readable through the lister. -/
theorem agetSystemCRD_storeRef (st : AStore) (cl : LCluster) (name : String) (c : ACRD)
    (h : agetSystemCRD st cl name = .ok c) : storeRef st c.annRef := by
  unfold agetSystemCRD at h
  by_cases hw : cl = WildcardCluster
  · rw [if_pos hw] at h
    exact .inl ⟨_, c, h, rfl⟩
  · rw [if_neg hw] at h
    by_cases hk : ((st.sysProvider.Keys cl).contains
        (toClusterAwareKey SystemCRDLogicalCluster name)) = true
    · rw [if_pos hk] at h
      exact .inl ⟨_, c, h, rfl⟩
    · rw [if_neg hk] at h
      cases h

/-- A CRD returned by the wildcard partial-metadata lookup is in the
`byGroupResourceName` index. -/
theorem agetForWildcardPartialMetadata_storeRef (st : AStore) (name : String) (c : ACRD)
    (h : agetForWildcardPartialMetadata st name = .ok c) : storeRef st c.annRef := by
  unfold agetForWildcardPartialMetadata at h
  cases hidx : st.crdIndexByGroupResourceName name with
  | error e => rw [hidx] at h; cases h
  | ok objs =>
    rw [hidx] at h
    cases objs with
    | nil => cases h
    | cons crd rest =>
      exact .inr ⟨name, crd :: rest, crd, hidx, by simp,
        congrArg ACRD.annRef (Except.ok.inj h)⟩

/-- `apickUniform` only returns an accumulator or a list member. -/
theorem apickUniform_mem : ∀ (objs : List ACRD) (found : Option ACRD) (c : ACRD),
    apickUniform found objs = .ok (some c) → found = some c ∨ c ∈ objs := by
  intro objs
  induction objs with
  | nil =>
    intro found c h
    simp only [apickUniform] at h
    exact .inl (by simpa using h)
  | cons crd rest ih =>
    intro found c h
    cases found with
    | none =>
      rcases ih (some crd) c h with h' | h'
      · exact .inr (by simp [Option.some.inj h'])
      · exact .inr (by simp [h'])
    | some fd =>
      by_cases he : fd.specId = crd.specId
      · simp only [apickUniform, he, if_pos] at h
        rcases ih (some fd) c h with h' | h'
        · exact .inl h'
        · exact .inr (by simp [h'])
      · simp only [apickUniform, he] at h
        simp at h

/-- A CRD returned by the full-data wildcard lookup is in the
`byGroupResourceName` index. -/
theorem agetForFullDataWildcard_storeRef (st : AStore) (name : String) (c : ACRD)
    (h : agetForFullDataWildcard st name = .ok c) : storeRef st c.annRef := by
  unfold agetForFullDataWildcard at h
  cases hidx : st.crdIndexByGroupResourceName name with
  | error e => rw [hidx] at h; cases h
  | ok objs =>
    simp only [hidx] at h
    cases hpick : apickUniform none objs with
    | error e => simp only [hpick] at h; cases h
    | ok found =>
      simp only [hpick] at h
      cases found with
      | none => cases h
      | some fd =>
        rcases apickUniform_mem objs none fd hpick with h' | h'
        · cases h'
        · exact .inr ⟨name, objs, fd, hidx, h', congrArg ACRD.annRef (Except.ok.inj h)⟩

/-- The identity path's result and cursor ignore the heap, and its output
heap at the returned CRD's cell agrees across heaps that agree on the
store's cells. -/
theorem agetForIdentity_congr (st : AStore) (f : Nat) (name identity : String)
    (h₁ h₂ : Heap) (hag : ∀ r, storeRef st r → h₁ r = h₂ r) :
    (agetForIdentity st h₁ f name identity).1 = (agetForIdentity st h₂ f name identity).1 ∧
    (agetForIdentity st h₁ f name identity).2.2 =
      (agetForIdentity st h₂ f name identity).2.2 ∧
    ∀ c, (agetForIdentity st h₁ f name identity).1 = .ok c →
      (agetForIdentity st h₁ f name identity).2.1 c.annRef =
        (agetForIdentity st h₂ f name identity).2.1 c.annRef := by
  cases hidx : st.apiBindingIndexByIdentityGroupResource
      (identityGroupResourceKey identity (crdNameToGroupResource name).1
        (crdNameToGroupResource name).2) with
  | error e => simp [agetForIdentity, hidx]
  | ok bs =>
    cases bs with
    | nil => simp [agetForIdentity, hidx]
    | cons b rest =>
      cases hfind : b.boundResources.find? (fun r =>
          r.group == (crdNameToGroupResource name).1 &&
          r.resource == (crdNameToGroupResource name).2 &&
          r.identityHash == identity) with
      | none => simp [agetForIdentity, hidx, hfind]
      | some r =>
        by_cases huid : r.schemaUID = ""
        · simp [agetForIdentity, hidx, hfind, huid]
        · cases hcl : st.crdLister (toClusterAwareKey ShadowWorkspaceName r.schemaUID) with
          | error e => simp [agetForIdentity, hidx, hfind, huid, hcl]
          | ok crd =>
            have hcr : h₁ crd.annRef = h₂ crd.annRef := hag _ (.inl ⟨_, crd, hcl, rfl⟩)
            refine ⟨by simp [agetForIdentity, hidx, hfind, huid, hcl, adecorate],
              by simp [agetForIdentity, hidx, hfind, huid, hcl, adecorate], ?_⟩
            intro c hc
            simp only [agetForIdentity, hidx, hfind, huid, reduceIte, hcl, adecorate] at hc ⊢
            have hcc := Except.ok.inj hc
            subst hcc
            simp [hcr]

/-- The normal path's result and cursor ignore the heap, and its output
heap at the returned CRD's cell agrees across heaps that agree on the
store's cells. -/
theorem agetNormal_congr (st : AStore) (f : Nat) (cl : LCluster) (name : String)
    (h₁ h₂ : Heap) (hag : ∀ r, storeRef st r → h₁ r = h₂ r) :
    (agetNormal st h₁ f cl name).1 = (agetNormal st h₂ f cl name).1 ∧
    (agetNormal st h₁ f cl name).2.2 = (agetNormal st h₂ f cl name).2.2 ∧
    ∀ c, (agetNormal st h₁ f cl name).1 = .ok c →
      (agetNormal st h₁ f cl name).2.1 c.annRef =
        (agetNormal st h₂ f cl name).2.1 c.annRef := by
  cases hidx : st.apiBindingIndexByWorkspace (clusterString cl) with
  | error e => simp [agetNormal, hidx]
  | ok bindings =>
    cases hfb : findBound (crdNameToGroupResource name).1 (crdNameToGroupResource name).2
        bindings with
    | some br =>
      obtain ⟨b, r⟩ := br
      cases hcl2 : st.crdLister (toClusterAwareKey ShadowWorkspaceName r.schemaUID) with
      | error e => cases e <;> simp [agetNormal, hidx, hfb, hcl2]
      | ok crd =>
        have hcr : h₁ crd.annRef = h₂ crd.annRef := hag _ (.inl ⟨_, crd, hcl2, rfl⟩)
        refine ⟨by simp [agetNormal, hidx, hfb, hcl2, adecorate],
          by simp [agetNormal, hidx, hfb, hcl2, adecorate], ?_⟩
        intro c hc
        simp only [agetNormal, hidx, hfb, hcl2, adecorate] at hc ⊢
        have hcc := Except.ok.inj hc
        subst hcc
        simp [hcr]
    | none =>
      cases hcl3 : st.crdLister (toClusterAwareKey cl name) with
      | error e => cases e <;> simp [agetNormal, hidx, hfb, hcl3]
      | ok crd =>
        have hcr : h₁ crd.annRef = h₂ crd.annRef := hag _ (.inl ⟨_, crd, hcl3, rfl⟩)
        refine ⟨by simp [agetNormal, hidx, hfb, hcl3],
          by simp [agetNormal, hidx, hfb, hcl3], ?_⟩
        intro c hc
        simp only [agetNormal, hidx, hfb, hcl3] at hc ⊢
        have hcc := Except.ok.inj hc
        subst hcc
        exact hcr

/-- `Get`'s result and cursor ignore the heap, and the output heap agrees
at the returned CRD's cell, across heaps that agree on the store's cells:
the observable behaviour of `Get` reads the heap only through the store's
annotation maps. -/
theorem AGet_congr (st : AStore) (f : Nat) (ctx : Ctx) (name : String) (h₁ h₂ : Heap)
    (hag : ∀ r, storeRef st r → h₁ r = h₂ r) :
    (AGet st h₁ f ctx name).1 = (AGet st h₂ f ctx name).1 ∧
    (AGet st h₁ f ctx name).2.2 = (AGet st h₂ f ctx name).2.2 ∧
    ∀ c, (AGet st h₁ f ctx name).1 = some (.ok c) →
      (AGet st h₁ f ctx name).2.1 c.annRef = (AGet st h₂ f ctx name).2.1 c.annRef := by
  cases hcl : ctx.clusterName with
  | none => simp [AGet, hcl]
  | some cl =>
    cases hsys : agetSystemCRD st cl name with
    | ok crd =>
      have hcr := hag _ (agetSystemCRD_storeRef st cl name crd hsys)
      cases hiso : isPartialMetadataRequestOpt ctx with
      | none => simp [AGet, hcl, hsys, hiso]
      | some pm =>
        obtain ⟨hp1, hp2, hp3⟩ := aproject_congr h₁ h₂ f cl name pm crd hcr
        refine ⟨by simp [AGet, hcl, hsys, hiso, hp1],
          by simp [AGet, hcl, hsys, hiso, hp2], ?_⟩
        intro c hc
        simp only [AGet, hcl, hsys, hiso] at hc ⊢
        have hcc : (aprojectIfPartial h₁ f cl name pm crd).1 = c :=
          Except.ok.inj (Option.some.inj hc)
        rw [← hcc]
        conv_rhs => rw [hp1]
        exact hp3
    | error e =>
      by_cases he : e = KErr.notFound
      · subst he
        cases hiso : isPartialMetadataRequestOpt ctx with
        | none => simp [AGet, hcl, hsys, hiso]
        | some pm =>
          by_cases hid : (ctx.identity != "") = true
          · obtain ⟨hs1, hs2, hs3⟩ := agetForIdentity_congr st f name ctx.identity h₁ h₂ hag
            cases hres : (agetForIdentity st h₁ f name ctx.identity).1 with
            | error e' =>
              have hres2 : (agetForIdentity st h₂ f name ctx.identity).1 = .error e' :=
                hs1.symm.trans hres
              refine ⟨by simp [AGet, hcl, hsys, hiso, hid, hres, hres2],
                by simp [AGet, hcl, hsys, hiso, hid, hres, hres2, hs2], ?_⟩
              intro c hc
              simp only [AGet, hcl, hsys, hiso, hid, reduceIte, hres] at hc
              exact absurd hc (by simp)
            | ok crd =>
              have hres2 : (agetForIdentity st h₂ f name ctx.identity).1 = .ok crd :=
                hs1.symm.trans hres
              have hcra := hs3 crd hres
              obtain ⟨hp1, hp2, hp3⟩ := aproject_congr
                (agetForIdentity st h₁ f name ctx.identity).2.1
                (agetForIdentity st h₂ f name ctx.identity).2.1
                (agetForIdentity st h₁ f name ctx.identity).2.2 cl name pm crd hcra
              refine ⟨by simp [AGet, hcl, hsys, hiso, hid, hres, hres2, hp1, ← hs2],
                by simp [AGet, hcl, hsys, hiso, hid, hres, hres2, hp2, ← hs2], ?_⟩
              intro c hc
              simp only [AGet, hcl, hsys, hiso, hid, reduceIte, hres, hres2, ← hs2] at hc ⊢
              have hcc : (aprojectIfPartial (agetForIdentity st h₁ f name ctx.identity).2.1
                  (agetForIdentity st h₁ f name ctx.identity).2.2 cl name pm crd).1 = c :=
                Except.ok.inj (Option.some.inj hc)
              rw [← hcc]
              conv_rhs => rw [hp1]
              exact hp3
          · have hidf : (ctx.identity != "") = false := by simpa using hid
            by_cases hwpm : ((cl == WildcardCluster) && pm) = true
            · cases hres : agetForWildcardPartialMetadata st name with
              | error e' =>
                refine ⟨by simp [AGet, hcl, hsys, hiso, hidf, hwpm, hres],
                  by simp [AGet, hcl, hsys, hiso, hidf, hwpm, hres], ?_⟩
                intro c hc
                simp only [AGet, hcl, hsys, hiso, hidf, reduceIte, hwpm, hres] at hc
                exact absurd hc (by simp)
              | ok crd =>
                have hcr := hag _
                  (agetForWildcardPartialMetadata_storeRef st name crd hres)
                obtain ⟨hp1, hp2, hp3⟩ := aproject_congr h₁ h₂ f cl name pm crd hcr
                refine ⟨by simp [AGet, hcl, hsys, hiso, hidf, hwpm, hres, hp1],
                  by simp [AGet, hcl, hsys, hiso, hidf, hwpm, hres, hp2], ?_⟩
                intro c hc
                simp only [AGet, hcl, hsys, hiso, hidf, reduceIte, hwpm, hres] at hc ⊢
                have hcc : (aprojectIfPartial h₁ f cl name pm crd).1 = c :=
                  Except.ok.inj (Option.some.inj hc)
                rw [← hcc]
                conv_rhs => rw [hp1]
                exact hp3
            · have hwpmf : ((cl == WildcardCluster) && pm) = false := by simpa using hwpm
              by_cases hw : (cl == WildcardCluster) = true
              · have hpmf : pm = false := by
                  cases pm
                  · rfl
                  · rw [hw] at hwpmf
                    simp at hwpmf
                subst hpmf
                cases hres : agetForFullDataWildcard st name with
                | error e' =>
                  refine ⟨by simp [AGet, hcl, hsys, hiso, hidf, hwpmf, hw, hres],
                    by simp [AGet, hcl, hsys, hiso, hidf, hwpmf, hw, hres], ?_⟩
                  intro c hc
                  simp only [AGet, hcl, hsys, hiso, hidf, reduceIte, hwpmf, hw,
                    hres] at hc
                  exact absurd hc (by simp)
                | ok crd =>
                  have hcr := hag _ (agetForFullDataWildcard_storeRef st name crd hres)
                  obtain ⟨hp1, hp2, hp3⟩ := aproject_congr h₁ h₂ f cl name false crd hcr
                  refine ⟨by simp [AGet, hcl, hsys, hiso, hidf, hwpmf, hw, hres,
                      aproject_false],
                    by simp [AGet, hcl, hsys, hiso, hidf, hwpmf, hw, hres,
                      aproject_false], ?_⟩
                  intro c hc
                  simp only [AGet, hcl, hsys, hiso, hidf, reduceIte, hwpmf, hw,
                    hres, aproject_false] at hc ⊢
                  have hcc := Except.ok.inj (Option.some.inj hc)
                  subst hcc
                  exact hcr
              · have hwf : (cl == WildcardCluster) = false := by simpa using hw
                obtain ⟨hs1, hs2, hs3⟩ := agetNormal_congr st f cl name h₁ h₂ hag
                cases hres : (agetNormal st h₁ f cl name).1 with
                | error e' =>
                  have hres2 : (agetNormal st h₂ f cl name).1 = .error e' :=
                    hs1.symm.trans hres
                  refine ⟨by simp [AGet, hcl, hsys, hiso, hidf, hwpmf, hwf, hres, hres2],
                    by simp [AGet, hcl, hsys, hiso, hidf, hwpmf, hwf, hres, hres2, hs2], ?_⟩
                  intro c hc
                  simp only [AGet, hcl, hsys, hiso, hidf, reduceIte, hwpmf, hwf, hres] at hc
                  exact absurd hc (by simp)
                | ok crd =>
                  have hres2 : (agetNormal st h₂ f cl name).1 = .ok crd :=
                    hs1.symm.trans hres
                  have hcra := hs3 crd hres
                  obtain ⟨hp1, hp2, hp3⟩ := aproject_congr
                    (agetNormal st h₁ f cl name).2.1 (agetNormal st h₂ f cl name).2.1
                    (agetNormal st h₁ f cl name).2.2 cl name pm crd hcra
                  refine ⟨by simp [AGet, hcl, hsys, hiso, hidf, hwpmf, hwf, hres, hres2,
                      hp1, ← hs2],
                    by simp [AGet, hcl, hsys, hiso, hidf, hwpmf, hwf, hres, hres2,
                      hp2, ← hs2], ?_⟩
                  intro c hc
                  simp only [AGet, hcl, hsys, hiso, hidf, reduceIte, hwpmf, hwf, hres, hres2,
                    ← hs2] at hc ⊢
                  have hcc : (aprojectIfPartial (agetNormal st h₁ f cl name).2.1
                      (agetNormal st h₁ f cl name).2.2 cl name pm crd).1 = c :=
                    Except.ok.inj (Option.some.inj hc)
                  rw [← hcc]
                  conv_rhs => rw [hp1]
                  exact hp3
      · simp [AGet, hcl, hsys, he]

/-- A successful identity-path result has its annotations at the cursor,
which advances by one. -/
theorem agetForIdentity_ok_shape (st : AStore) (h : Heap) (f : Nat)
    (name identity : String) (c : ACRD)
    (hc : (agetForIdentity st h f name identity).1 = .ok c) :
    c.annRef = f ∧ (agetForIdentity st h f name identity).2.2 = f + 1 := by
  cases hidx : st.apiBindingIndexByIdentityGroupResource
      (identityGroupResourceKey identity (crdNameToGroupResource name).1
        (crdNameToGroupResource name).2) with
  | error e => simp only [agetForIdentity, hidx] at hc; cases hc
  | ok bs =>
    cases bs with
    | nil => simp only [agetForIdentity, hidx] at hc; cases hc
    | cons b rest =>
      cases hfind : b.boundResources.find? (fun r =>
          r.group == (crdNameToGroupResource name).1 &&
          r.resource == (crdNameToGroupResource name).2 &&
          r.identityHash == identity) with
      | none => simp only [agetForIdentity, hidx, hfind] at hc; cases hc
      | some r =>
        by_cases huid : r.schemaUID = ""
        · simp only [agetForIdentity, hidx, hfind, huid, reduceIte] at hc
          cases hc
        · cases hcl : st.crdLister (toClusterAwareKey ShadowWorkspaceName r.schemaUID) with
          | error e =>
            simp only [agetForIdentity, hidx, hfind, huid, reduceIte, hcl] at hc
            cases hc
          | ok crd =>
            simp only [agetForIdentity, hidx, hfind, huid, reduceIte, hcl,
              adecorate] at hc ⊢
            have hcc := Except.ok.inj hc
            subst hcc
            exact ⟨by trivial, by trivial⟩

/-- When the normal path resolves through a binding, a successful result
has its annotations at the cursor, which advances by one. -/
theorem agetNormal_bound_ok_shape (st : AStore) (h : Heap) (f : Nat) (cl : LCluster)
    (name : String) (bindings : List APIBinding) (b : APIBinding) (r : BoundResource)
    (c : ACRD)
    (hidx : st.apiBindingIndexByWorkspace (clusterString cl) = .ok bindings)
    (hfb : findBound (crdNameToGroupResource name).1 (crdNameToGroupResource name).2
      bindings = some (b, r))
    (hc : (agetNormal st h f cl name).1 = .ok c) :
    c.annRef = f ∧ (agetNormal st h f cl name).2.2 = f + 1 := by
  cases hcl2 : st.crdLister (toClusterAwareKey ShadowWorkspaceName r.schemaUID) with
  | error e =>
    cases e <;> simp only [agetNormal, hidx, hfb, hcl2] at hc <;> cases hc
  | ok crd =>
    simp only [agetNormal, hidx, hfb, hcl2, adecorate] at hc ⊢
    have hcc := Except.ok.inj hc
    subst hcc
    exact ⟨by trivial, by trivial⟩

/-- The cursor never moves backwards through the normal path. -/
theorem agetNormal_fresh_ge (st : AStore) (h : Heap) (f : Nat) (cl : LCluster)
    (name : String) : f ≤ (agetNormal st h f cl name).2.2 := by
  cases hidx : st.apiBindingIndexByWorkspace (clusterString cl) with
  | error e => simp [agetNormal, hidx]
  | ok bindings =>
    cases hfb : findBound (crdNameToGroupResource name).1 (crdNameToGroupResource name).2
        bindings with
    | some br =>
      obtain ⟨b, r⟩ := br
      cases hcl2 : st.crdLister (toClusterAwareKey ShadowWorkspaceName r.schemaUID) with
      | error e => cases e <;> simp [agetNormal, hidx, hfb, hcl2]
      | ok crd => simp [agetNormal, hidx, hfb, hcl2, adecorate]
    | none =>
      cases hcl3 : st.crdLister (toClusterAwareKey cl name) with
      | error e => cases e <;> simp [agetNormal, hidx, hfb, hcl3]
      | ok crd => simp [agetNormal, hidx, hfb, hcl3]

/-- The cursor never moves backwards through the identity path. -/
theorem agetForIdentity_fresh_ge (st : AStore) (h : Heap) (f : Nat)
    (name identity : String) : f ≤ (agetForIdentity st h f name identity).2.2 := by
  cases hidx : st.apiBindingIndexByIdentityGroupResource
      (identityGroupResourceKey identity (crdNameToGroupResource name).1
        (crdNameToGroupResource name).2) with
  | error e => simp [agetForIdentity, hidx]
  | ok bs =>
    cases bs with
    | nil => simp [agetForIdentity, hidx]
    | cons b rest =>
      cases hfind : b.boundResources.find? (fun r =>
          r.group == (crdNameToGroupResource name).1 &&
          r.resource == (crdNameToGroupResource name).2 &&
          r.identityHash == identity) with
      | none => simp [agetForIdentity, hidx, hfind]
      | some r =>
        by_cases huid : r.schemaUID = ""
        · simp [agetForIdentity, hidx, hfind, huid]
        · cases hcl : st.crdLister (toClusterAwareKey ShadowWorkspaceName r.schemaUID) with
          | error e => simp [agetForIdentity, hidx, hfind, huid, hcl]
          | ok crd => simp [agetForIdentity, hidx, hfind, huid, hcl, adecorate]

/-- On the projected and decorated paths, a successful `Get` returns a CRD
whose annotations map was allocated during the call (its address is at or
above the incoming cursor). -/
theorem AGet_fresh_ref (st : AStore) (h : Heap) (f : Nat) (ctx : Ctx) (name : String)
    (cl : LCluster) (a : String) (c : ACRD)
    (hcl : ctx.clusterName = some cl) (ha : ctx.acceptHeader = some a)
    (hpath :
      (¬ a = "" ∧ isPartialMetadataHeader a = true) ∨
      (agetSystemCRD st cl name = .error .notFound ∧ (ctx.identity != "") = true) ∨
      (agetSystemCRD st cl name = .error .notFound ∧ (ctx.identity != "") = false ∧
        (cl == WildcardCluster) = false ∧
        ∃ bindings b r, st.apiBindingIndexByWorkspace (clusterString cl) = .ok bindings ∧
          findBound (crdNameToGroupResource name).1 (crdNameToGroupResource name).2
            bindings = some (b, r)))
    (hok : (AGet st h f ctx name).1 = some (.ok c)) :
    f ≤ c.annRef := by
  rcases hpath with ⟨hane, hpmh⟩ | ⟨hsys, hid⟩ | ⟨hsys, hidf, hwf, bindings, b, r, hidx, hfb⟩
  · have hiso : isPartialMetadataRequestOpt ctx = some true := by
      simp [isPartialMetadataRequestOpt, ha, hane, hpmh]
    cases hsys : agetSystemCRD st cl name with
    | ok crd =>
      simp only [AGet, hcl, hsys, hiso] at hok
      have hcc := Except.ok.inj (Option.some.inj hok)
      rw [← hcc, aproject_true_annRef]
    | error e =>
      by_cases he : e = KErr.notFound
      · subst he
        by_cases hid2 : (ctx.identity != "") = true
        · cases hres : (agetForIdentity st h f name ctx.identity).1 with
          | error e' =>
            simp only [AGet, hcl, hsys, hiso, hid2, reduceIte, hres] at hok
            exact absurd hok (by simp)
          | ok crd =>
            simp only [AGet, hcl, hsys, hiso, hid2, reduceIte, hres] at hok
            have hcc := Except.ok.inj (Option.some.inj hok)
            rw [← hcc, aproject_true_annRef]
            exact agetForIdentity_fresh_ge st h f name ctx.identity
        · have hid2f : (ctx.identity != "") = false := by simpa using hid2
          by_cases hw : (cl == WildcardCluster) = true
          · cases hres : agetForWildcardPartialMetadata st name with
            | error e' =>
              simp only [AGet, hcl, hsys, hiso, hid2f, reduceIte, Bool.and_true, hw,
                hres] at hok
              exact absurd hok (by simp)
            | ok crd =>
              simp only [AGet, hcl, hsys, hiso, hid2f, reduceIte, Bool.and_true, hw,
                hres] at hok
              have hcc := Except.ok.inj (Option.some.inj hok)
              rw [← hcc, aproject_true_annRef]
          · have hwff : (cl == WildcardCluster) = false := by simpa using hw
            cases hres : (agetNormal st h f cl name).1 with
            | error e' =>
              simp only [AGet, hcl, hsys, hiso, hid2f, reduceIte, Bool.and_true, hwff,
                hres] at hok
              exact absurd hok (by simp)
            | ok crd =>
              simp only [AGet, hcl, hsys, hiso, hid2f, reduceIte, Bool.and_true, hwff,
                hres] at hok
              have hcc := Except.ok.inj (Option.some.inj hok)
              rw [← hcc, aproject_true_annRef]
              exact agetNormal_fresh_ge st h f cl name
      · simp only [AGet, hcl, hsys] at hok
        rw [if_neg he] at hok
        exact absurd hok (by simp)
  · have hiso : isPartialMetadataRequestOpt ctx =
        some (if a = "" then false else isPartialMetadataHeader a) := by
      simp [isPartialMetadataRequestOpt, ha]
    cases hres : (agetForIdentity st h f name ctx.identity).1 with
    | error e' =>
      simp only [AGet, hcl, hsys, hiso, hid, reduceIte, hres] at hok
      exact absurd hok (by simp)
    | ok crd =>
      obtain ⟨hann, hfre⟩ := agetForIdentity_ok_shape st h f name ctx.identity crd hres
      simp only [AGet, hcl, hsys, hiso, hid, reduceIte, hres] at hok
      have hcc := Except.ok.inj (Option.some.inj hok)
      cases hpm : (if a = "" then false else isPartialMetadataHeader a) with
      | false =>
        rw [hpm] at hcc
        rw [← hcc, aproject_false]
        rw [hann]
      | true =>
        rw [hpm] at hcc
        rw [← hcc, aproject_true_annRef, hfre]
        exact Nat.le_succ f
  · have hiso : isPartialMetadataRequestOpt ctx =
        some (if a = "" then false else isPartialMetadataHeader a) := by
      simp [isPartialMetadataRequestOpt, ha]
    cases hres : (agetNormal st h f cl name).1 with
    | error e' =>
      simp only [AGet, hcl, hsys, hiso, hidf, reduceIte, hwf, Bool.false_and,
        hres] at hok
      exact absurd hok (by simp)
    | ok crd =>
      obtain ⟨hann, hfre⟩ :=
        agetNormal_bound_ok_shape st h f cl name bindings b r crd hidx hfb hres
      simp only [AGet, hcl, hsys, hiso, hidf, reduceIte, hwf, Bool.false_and,
        hres] at hok
      have hcc := Except.ok.inj (Option.some.inj hok)
      cases hpm : (if a = "" then false else isPartialMetadataHeader a) with
      | false =>
        rw [hpm] at hcc
        rw [← hcc, aproject_false]
        rw [hann]
      | true =>
        rw [hpm] at hcc
        rw [← hcc, aproject_true_annRef, hfre]
        exact Nat.le_succ f

/-- C5 (amended): when the request is partial-metadata, or resolved through
the identity path, or resolved through a completed binding on the normal
path — the decorated/projected paths — the schema returned by `Get` carries
a freshly allocated annotations map: its address is not reachable from the
store, and a caller mutating that map does not change the observable result
(returned CRD and its annotations) of any subsequent `Get`.  (On the
system, full-data-wildcard and local-workspace paths of non-partial-
metadata requests the returned map aliases the cache: see the
counterexample.) -/
theorem get_annotations_isolated_when_decorated (st : AStore) (h : Heap) (f : Nat)
    (ctx : Ctx) (name : String) (cl : LCluster) (a : String) (c : ACRD)
    (hwf : ∀ r, storeRef st r → r < f)
    (hcl : ctx.clusterName = some cl) (ha : ctx.acceptHeader = some a)
    (hpath :
      (¬ a = "" ∧ isPartialMetadataHeader a = true) ∨
      (agetSystemCRD st cl name = .error .notFound ∧ (ctx.identity != "") = true) ∨
      (agetSystemCRD st cl name = .error .notFound ∧ (ctx.identity != "") = false ∧
        (cl == WildcardCluster) = false ∧
        ∃ bindings b r, st.apiBindingIndexByWorkspace (clusterString cl) = .ok bindings ∧
          findBound (crdNameToGroupResource name).1 (crdNameToGroupResource name).2
            bindings = some (b, r)))
    (hok : (AGet st h f ctx name).1 = some (.ok c)) :
    ¬ storeRef st c.annRef ∧
    ∀ k v ctx' name',
      AGetObs st (mutateAnn (AGet st h f ctx name).2.1 c.annRef k v)
        (AGet st h f ctx name).2.2 ctx' name' =
      AGetObs st (AGet st h f ctx name).2.1 (AGet st h f ctx name).2.2 ctx' name' := by
  have hfr : f ≤ c.annRef := AGet_fresh_ref st h f ctx name cl a c hcl ha hpath hok
  have hnsr : ¬ storeRef st c.annRef := fun hsr => absurd (hwf _ hsr) (by omega)
  refine ⟨hnsr, ?_⟩
  intro k v ctx' name'
  have hag : ∀ r, storeRef st r →
      mutateAnn (AGet st h f ctx name).2.1 c.annRef k v r =
        (AGet st h f ctx name).2.1 r := by
    intro r hr
    unfold mutateAnn
    rw [if_neg]
    intro he
    exact hnsr (he ▸ hr)
  obtain ⟨hg1, hg2, hg3⟩ := AGet_congr st (AGet st h f ctx name).2.2 ctx' name'
    (mutateAnn (AGet st h f ctx name).2.1 c.annRef k v) (AGet st h f ctx name).2.1 hag
  simp only [AGetObs]
  rw [hg1]
  cases hres : (AGet st (AGet st h f ctx name).2.1 (AGet st h f ctx name).2.2
      ctx' name').1 with
  | none => simp
  | some res =>
    cases res with
    | error e => rfl
    | ok crd =>
      have hres2 : (AGet st (mutateAnn (AGet st h f ctx name).2.1 c.annRef k v)
          (AGet st h f ctx name).2.2 ctx' name').1 = some (.ok crd) := by
        rw [hg1, hres]
      have hagree := hg3 crd hres2
      simp [Except.map, hagree]

/-- The CRD returned by the projected witness call: a fresh copy of
`acrd0` whose annotations live at the fresh address 1. -/
def acrd1 : ACRD :=
  { name := "widgets.example.io", clusterName := ["root", "w"], uid := "uid0"
    specId := 0, labels := [], annRef := 1 }

/-- The partial-metadata request context of the witness. -/
def ctxPm : Ctx := ⟨some ["root", "w"], "", some "application/json;as=PartialObjectMetadata"⟩

/-- Every store-reachable address of `astEx` is below the cursor 1. -/
theorem astEx_wf : ∀ r, storeRef astEx r → r < 1 := by
  intro r hr
  rcases hr with ⟨k, c, hk, hrf⟩ | ⟨k, l, c, hk, hm, hrf⟩
  · by_cases hkk : k = "root:w|widgets.example.io"
    · subst hkk
      have hc : acrd0 = c := by
        have hk' : (if ("root:w|widgets.example.io" : String) = "root:w|widgets.example.io"
            then Except.ok acrd0 else Except.error KErr.notFound) = Except.ok c := hk
        rw [if_pos rfl] at hk'
        exact Except.ok.inj hk'
      subst hrf
      rw [← hc]
      decide
    · have hk' : (Except.error KErr.notFound : Except KErr ACRD) = Except.ok c := by
        have h0 : astEx.crdLister k = Except.error KErr.notFound := by
          simp [astEx, hkk]
        rw [← h0, hk]
      cases hk'
  · have h0 : astEx.crdIndexByGroupResourceName k = Except.ok [] := rfl
    rw [h0] at hk
    have hl := Except.ok.inj hk
    rw [← hl] at hm
    simp at hm

/-- Witness for the amended C5: a concrete projected request whose returned
annotations map is fresh; mutating it leaves the next `Get`'s observable
result unchanged. -/
theorem get_annotations_isolated_witness :
    ¬ storeRef astEx acrd1.annRef ∧
    AGetObs astEx (mutateAnn (AGet astEx heap0 1 ctxPm "widgets.example.io").2.1
        acrd1.annRef "a" "2")
      (AGet astEx heap0 1 ctxPm "widgets.example.io").2.2 ctxPm "widgets.example.io" =
    AGetObs astEx (AGet astEx heap0 1 ctxPm "widgets.example.io").2.1
      (AGet astEx heap0 1 ctxPm "widgets.example.io").2.2 ctxPm "widgets.example.io" :=
  ⟨(get_annotations_isolated_when_decorated astEx heap0 1 ctxPm "widgets.example.io"
      ["root", "w"] "application/json;as=PartialObjectMetadata" acrd1 astEx_wf rfl rfl
      (.inl ⟨by decide, by decide⟩) (by decide)).1,
   (get_annotations_isolated_when_decorated astEx heap0 1 ctxPm "widgets.example.io"
      ["root", "w"] "application/json;as=PartialObjectMetadata" acrd1 astEx_wf rfl rfl
      (.inl ⟨by decide, by decide⟩) (by decide)).2 "a" "2" ctxPm "widgets.example.io"⟩

end Alias
